import Mathlib

/-!
# Verification of the gRASPA job tracker specification

A shallow embedding of the job-state tracking and submission-orchestration
engine of `gRASPA_job_tracker` (Python), together with proofs settling the
frozen claims C1..C10.

Conventions used throughout this development:

* Python strings are modelled as `String` (or `List Char` where character
  level reasoning is needed); file contents are modelled as the *stripped*
  text the Python code compares against (`f.read().strip()`).
* Machine timestamps are natural numbers; `pd.Timestamp` columns are
  `Option Nat` (`none` = `NaT`).
* Filesystem and scheduler state is modelled as a fixed snapshot (a record
  of pure functions): the claims under study all quantify over a *fixed*
  filesystem / queue snapshot.
* Fallible Python code is modelled with `Option` / `Except`.
-/

namespace GRASPA

/-! ## Batch partitioner (`batch_manager.py`) -/

/-- Embedding of `BatchManager._split_into_batches` (batch_manager.py,
lines 175-200).  `num_batches = math.ceil(num_files / batch_size)`,
and batch `i` is the Python slice `files[i*size : min((i+1)*size, num_files)]`.
The side effects (writing `batch_{n}.csv`, creating results directories) are
not part of the returned value and are not modelled. -/
def splitIntoBatches (files : List String) (batchSize : Nat) : List (List String) :=
  let numFiles := files.length
  let numBatches := (numFiles + batchSize - 1) / batchSize
  (List.range numBatches).map
    (fun i => (files.drop (i * batchSize)).take (min ((i + 1) * batchSize) numFiles - i * batchSize))

theorem take_min_length {α : Type} (l : List α) (k : Nat) :
    l.take (min k l.length) = l.take k := by
  rcases Nat.le_total k l.length with h | h
  · rw [Nat.min_eq_left h]
  · rw [Nat.min_eq_right h, List.take_length, List.take_of_length_le h]

theorem splitIntoBatches_slice_eq (files : List String) (batchSize : Nat) (i : Nat) :
    (files.drop (i * batchSize)).take (min ((i + 1) * batchSize) files.length - i * batchSize)
      = (files.drop (i * batchSize)).take batchSize := by
  have hlen : (files.drop (i * batchSize)).length = files.length - i * batchSize := by
    simp [List.length_drop]
  have harith : min ((i + 1) * batchSize) files.length - i * batchSize
      = min batchSize (files.length - i * batchSize) := by
    have : (i + 1) * batchSize = i * batchSize + batchSize := by ring
    omega
  rw [harith, ← hlen, take_min_length]

/-- The mapped form of `splitIntoBatches` with the slice bound normalised. -/
theorem splitIntoBatches_eq_map (files : List String) (batchSize : Nat) :
    splitIntoBatches files batchSize =
      (List.range ((files.length + batchSize - 1) / batchSize)).map
        (fun i => (files.drop (i * batchSize)).take batchSize) := by
  unfold splitIntoBatches
  exact List.map_congr_left (fun i _ => splitIntoBatches_slice_eq files batchSize i)

theorem join_chunks (files : List String) (batchSize : Nat) (k : Nat) :
    ((List.range k).map (fun i => (files.drop (i * batchSize)).take batchSize)).flatten
      = files.take (k * batchSize) := by
  induction k with
  | zero => simp
  | succ k ih =>
    rw [List.range_succ, List.map_append, List.flatten_append, ih]
    simp only [List.map_cons, List.map_nil, List.flatten_cons, List.flatten_nil,
      List.append_nil]
    have : (k + 1) * batchSize = k * batchSize + batchSize := by ring
    rw [this, List.take_add]

theorem ceil_mul_ge (n s : Nat) (hs : 0 < s) : n ≤ ((n + s - 1) / s) * s := by
  have hd := Nat.div_add_mod (n + s - 1) s
  have hm := Nat.mod_lt (n + s - 1) hs
  rw [Nat.mul_comm]
  omega

theorem splitIntoBatches_flatten (files : List String) (batchSize : Nat)
    (hs : 0 < batchSize) :
    (splitIntoBatches files batchSize).flatten = files := by
  rw [splitIntoBatches_eq_map, join_chunks]
  exact List.take_of_length_le (ceil_mul_ge files.length batchSize hs)

theorem splitIntoBatches_count (files : List String) (batchSize : Nat) :
    (splitIntoBatches files batchSize).length
      = (files.length + batchSize - 1) / batchSize := by
  rw [splitIntoBatches_eq_map]
  simp

theorem splitIntoBatches_getElem_length (files : List String) (batchSize : Nat)
    (i : Nat) (hi : i < (splitIntoBatches files batchSize).length) :
    (splitIntoBatches files batchSize)[i].length
      = min batchSize (files.length - i * batchSize) := by
  simp only [splitIntoBatches_eq_map, List.getElem_map, List.getElem_range,
    List.length_take, List.length_drop]

theorem chunk_bound (n s i : Nat) (hs : 0 < s) (hi : i + 1 < (n + s - 1) / s) :
    s ≤ n - i * s := by
  -- i + 2 ≤ ceil(n/s)  implies  (i+2)*s ≤ n + s - 1, hence i*s + s ≤ n - 1
  have h2 : i + 2 ≤ (n + s - 1) / s := hi
  have h3 : (i + 2) * s ≤ n + s - 1 := by
    have := (Nat.le_div_iff_mul_le hs).mp h2
    omega
  have h4 : (i + 2) * s = i * s + 2 * s := by ring
  omega

/-- **C7**. `_split_into_batches` (batch_manager.py 175-200): for every file
list and positive batch size, the concatenation of the produced batches is
exactly the input list (hence the multiset union of the batches equals the
input with each file exactly once, in order); the number of batches is
`ceil(N / size)`; every batch except possibly the last has exactly the
configured size, and the last is no longer than the configured size. -/
theorem split_into_batches_partition (files : List String) (batchSize : Nat)
    (hs : 0 < batchSize) :
    (splitIntoBatches files batchSize).flatten = files ∧
    (splitIntoBatches files batchSize).length
        = (files.length + batchSize - 1) / batchSize ∧
    (∀ i (hi : i < (splitIntoBatches files batchSize).length),
        i + 1 < (splitIntoBatches files batchSize).length →
          (splitIntoBatches files batchSize)[i].length = batchSize) ∧
    (∀ i (hi : i < (splitIntoBatches files batchSize).length),
        (splitIntoBatches files batchSize)[i].length ≤ batchSize) := by
  refine ⟨splitIntoBatches_flatten files batchSize hs,
    splitIntoBatches_count files batchSize, ?_, ?_⟩
  · intro i hi hnext
    rw [splitIntoBatches_getElem_length files batchSize i hi]
    have hcount := splitIntoBatches_count files batchSize
    have : i + 1 < (files.length + batchSize - 1) / batchSize := by omega
    have := chunk_bound files.length batchSize i hs this
    omega
  · intro i hi
    rw [splitIntoBatches_getElem_length files batchSize i hi]
    omega

/-- Witness for `split_into_batches_partition` at a concrete input:
5 files with batch size 2 give batches [2, 2, 1]. -/
theorem split_into_batches_partition_witness :
    (0 < 2 ∧
      (splitIntoBatches ["a", "b", "c", "d", "e"] 2).flatten = ["a", "b", "c", "d", "e"]) ∧
    splitIntoBatches ["a", "b", "c", "d", "e"] 2 = [["a", "b"], ["c", "d"], ["e"]] := by
  constructor
  · exact ⟨by decide, (split_into_batches_partition ["a", "b", "c", "d", "e"] 2 (by decide)).1⟩
  · rfl

/-! ## Status vocabulary

The tracker's statuses are free-form Python strings; we model the strings
that occur in the code as constructors (named exactly like the strings) and
keep an `other` constructor for raw scheduler states (e.g. `COMPLETING`)
that `squeue`/`sacct` may report. -/

inductive Status where
  | NEVER_SUBMITTED
  | PENDING
  | RUNNING
  | COMPLETED
  | PARTIALLY_COMPLETE
  | FAILED
  | CANCELLED
  | TIMEOUT
  | UNKNOWN
  | DRY_RUN
  | other (s : String)
deriving DecidableEq, Inhabited

/-! ## Partial-completion check (`job_tracker.py`) -/

/-- Observation of one workflow step's output directory in a filesystem
snapshot: the directory may be absent, the step's `exit_status.log` may be
absent or unreadable, or it holds (stripped) content `s`. -/
inductive StepObs where
  | dirAbsent
  | markerAbsent
  | unreadable
  | marker (s : String)
deriving DecidableEq

/-- Step classification inside `_check_partial_completion`
(job_tracker.py 601-625): `none` means the step directory does not exist
(the loop `continue`s: not reached); `some true` means the step is appended
to `completed_steps` (marker reads `"0"`); `some false` to `failed_steps`
(marker present and nonzero, unreadable, or absent while the directory
exists). -/
def classifyStep (obs : StepObs) : Option Bool :=
  match obs with
  | .dirAbsent => none
  | .markerAbsent => some false
  | .unreadable => some false
  | .marker s => if s = "0" then some true else some false

/-- The `completed_steps` list built by `_check_partial_completion`. -/
def completedSteps (steps : List String) (obs : String → StepObs) : List String :=
  steps.filter (fun st => decide (classifyStep (obs st) = some true))

/-- The `failed_steps` list built by `_check_partial_completion`. -/
def failedSteps (steps : List String) (obs : String → StepObs) : List String :=
  steps.filter (fun st => decide (classifyStep (obs st) = some false))

/-- Embedding of `JobTracker._check_partial_completion`
(job_tracker.py 568-641).  `steps` is the configured workflow step list
(from `config['workflow']` names or `config['scripts']` keys) and `obs`
gives the filesystem observation of each step's output directory under the
batch output directory.  An empty step list yields `FAILED` immediately. -/
def checkPartialCompletion (steps : List String) (obs : String → StepObs) : Status :=
  if steps = [] then .FAILED
  else
    let completed := completedSteps steps obs
    if completed ≠ [] ∧ completed.length < steps.length then .PARTIALLY_COMPLETE
    else if completed.length = steps.length then .COMPLETED
    else .FAILED

/-- Embedding of `JobTracker._check_parameter_partial_completion`
(job_tracker.py 738-794); its body performs the same computation as
`_check_partial_completion` with the parameter combination's
`sub_job_output_dir` in place of the batch output directory. -/
def checkParameterPartialCompletion (steps : List String) (obs : String → StepObs) :
    Status :=
  if steps = [] then .FAILED
  else
    let completed := completedSteps steps obs
    if completed ≠ [] ∧ completed.length < steps.length then .PARTIALLY_COMPLETE
    else if completed.length = steps.length then .COMPLETED
    else .FAILED

theorem completedSteps_length_le (steps : List String) (obs : String → StepObs) :
    (completedSteps steps obs).length ≤ steps.length :=
  List.length_filter_le _ _

/-- **C1**. The partial-completion check over the configured step list
classifies a step with an existing directory as completed iff its own
`exit_status.log` reads `"0"`, as failed iff the directory exists and the
marker is nonzero / unreadable / absent, and skips steps without a
directory; the result is `PARTIALLY_COMPLETE` iff the completed count is
strictly between 0 and the total, `COMPLETED` iff the completed count
equals the total, and `FAILED` otherwise; an empty configured step list
yields `FAILED`.  Both the batch-level and the parameter-combination
variants of the check behave this way. -/
theorem check_partial_completion_correct (steps : List String)
    (obs : String → StepObs) (h : steps ≠ []) :
    (∀ st, st ∈ completedSteps steps obs ↔ st ∈ steps ∧ obs st = .marker "0") ∧
    (∀ st, st ∈ failedSteps steps obs ↔
        st ∈ steps ∧ obs st ≠ .dirAbsent ∧ obs st ≠ .marker "0") ∧
    (checkPartialCompletion steps obs = .PARTIALLY_COMPLETE ↔
        0 < (completedSteps steps obs).length ∧
          (completedSteps steps obs).length < steps.length) ∧
    (checkPartialCompletion steps obs = .COMPLETED ↔
        (completedSteps steps obs).length = steps.length) ∧
    (checkPartialCompletion steps obs = .FAILED ↔
        (completedSteps steps obs).length = 0 ∧
          (completedSteps steps obs).length ≠ steps.length) ∧
    (∀ obs', checkPartialCompletion [] obs' = .FAILED) ∧
    checkParameterPartialCompletion steps obs = checkPartialCompletion steps obs := by
  have hmem : ∀ st, st ∈ completedSteps steps obs ↔ st ∈ steps ∧ obs st = .marker "0" := by
    intro st
    simp only [completedSteps, List.mem_filter, decide_eq_true_eq]
    constructor
    · rintro ⟨h1, h2⟩
      refine ⟨h1, ?_⟩
      cases hobs : obs st <;> simp [classifyStep, hobs] at h2 ⊢
      · rename_i s
        by_cases hs : s = "0" <;> simp [hs] at h2 ⊢
    · rintro ⟨h1, h2⟩
      exact ⟨h1, by simp [classifyStep, h2]⟩
  have hmemf : ∀ st, st ∈ failedSteps steps obs ↔
      st ∈ steps ∧ obs st ≠ .dirAbsent ∧ obs st ≠ .marker "0" := by
    intro st
    simp only [failedSteps, List.mem_filter, decide_eq_true_eq]
    constructor
    · rintro ⟨h1, h2⟩
      refine ⟨h1, ?_⟩
      cases hobs : obs st <;> simp [classifyStep, hobs] at h2 ⊢
      · rename_i s
        by_cases hs : s = "0" <;> simp [hs] at h2 ⊢
    · rintro ⟨h1, h2, h3⟩
      refine ⟨h1, ?_⟩
      cases hobs : obs st
      · rw [hobs] at h2
        exact absurd rfl h2
      · simp [classifyStep]
      · simp [classifyStep]
      · rename_i s
        rw [hobs] at h3
        have hs : s ≠ "0" := by
          intro he
          exact h3 (by rw [he])
        simp [classifyStep, hs]
  have hlen := completedSteps_length_le steps obs
  have hne : completedSteps steps obs ≠ [] ↔ 0 < (completedSteps steps obs).length := by
    rw [List.length_pos]
  have heq : checkPartialCompletion steps obs =
      (if completedSteps steps obs ≠ [] ∧
          (completedSteps steps obs).length < steps.length then Status.PARTIALLY_COMPLETE
        else if (completedSteps steps obs).length = steps.length then Status.COMPLETED
        else Status.FAILED) := by
    unfold checkPartialCompletion
    rw [if_neg h]
  refine ⟨hmem, hmemf, ?_, ?_, ?_, ?_, rfl⟩
  · rw [heq]
    split_ifs with h1 h2
    · simp only [true_iff]
      exact ⟨hne.mp h1.1, h1.2⟩
    · simp only [reduceCtorEq, false_iff, not_and]
      intro hc
      omega
    · simp only [reduceCtorEq, false_iff, not_and]
      intro hc hlt
      exact h1 ⟨hne.mpr hc, hlt⟩
  · rw [heq]
    split_ifs with h1 h2
    · simp only [reduceCtorEq, false_iff]
      omega
    · simp [h2]
    · simp [h2]
  · rw [heq]
    split_ifs with h1 h2
    · simp only [reduceCtorEq, false_iff, not_and]
      intro hc
      exfalso
      have := hne.mp h1.1
      omega
    · simp only [reduceCtorEq, false_iff, not_and]
      omega
    · simp only [true_iff]
      refine ⟨?_, h2⟩
      by_contra hc
      exact h1 ⟨hne.mpr (by omega), by omega⟩
  · intro obs'
    rfl

/-- Witness for `check_partial_completion_correct`: a 3-step workflow with one
completed step, one failed step and one unreached step is classified
`PARTIALLY_COMPLETE`. -/
theorem check_partial_completion_correct_witness :
    (["charge", "sim", "analysis"] : List String) ≠ [] ∧
    checkPartialCompletion ["charge", "sim", "analysis"]
        (fun st => if st = "charge" then .marker "0"
          else if st = "sim" then .marker "1" else .dirAbsent)
      = .PARTIALLY_COMPLETE := by
  refine ⟨by decide, ?_⟩
  exact ((check_partial_completion_correct ["charge", "sim", "analysis"]
    (fun st => if st = "charge" then .marker "0"
      else if st = "sim" then .marker "1" else .dirAbsent)
    (by decide)).2.2.1).mpr (by decide)

/-! ## Parameter matrix (`parameter_matrix.py`)

Python strings in this section are modelled as `List Char` so that the
first-underscore split performed by the reconciler can be reasoned about
character by character. -/

/-- One generated parameter combination
(`{'param_id': i, 'name': ..., 'parameters': {...}}`). -/
structure ParamCombo where
  param_id : Nat
  name : List Char
  parameters : List (List Char × List Char)
deriving DecidableEq

/-- Decimal rendering of a natural number, as Python's `str(batch_id)`
produces inside the f-string `f"B{batch_id}_{param_name}"`. -/
def natStr (n : Nat) : List Char :=
  Nat.toDigits 10 n

/-- Embedding of `ParameterMatrix.get_sub_job_name`
(parameter_matrix.py 143-158): `f"B{batch_id}_{param_name}"` for a known
`param_id`, `f"B{batch_id}_param_{param_id}"` otherwise. -/
def getSubJobName (combos : List ParamCombo) (batchId paramId : Nat) : List Char :=
  if h : paramId < combos.length then
    'B' :: natStr batchId ++ '_' :: (combos.get ⟨paramId, h⟩).name
  else
    'B' :: natStr batchId ++ '_' :: ("param_".toList ++ natStr paramId)

/-- Embedding of the reconciler's parse of a `param_combination_id`
(job_tracker.py 283-292): it first checks `'_' in param_id` (skipping the
row otherwise, hence `none`), then takes `param_id.split('_', 1)[1]` — the
remainder after the *first* underscore. -/
def splitAfterFirstUnderscore : List Char → Option (List Char)
  | [] => none
  | c :: rest => if c = '_' then some rest else splitAfterFirstUnderscore rest

theorem digitChar_ne_underscore (k : Nat) (h : k < 10) :
    Nat.digitChar k ≠ '_' := by
  interval_cases k <;> decide

theorem toDigitsCore_ne_underscore (fuel n : Nat) (acc : List Char)
    (hacc : ∀ c ∈ acc, c ≠ '_') :
    ∀ c ∈ Nat.toDigitsCore 10 fuel n acc, c ≠ '_' := by
  induction fuel generalizing n acc with
  | zero => exact hacc
  | succ fuel ih =>
    intro c hc
    simp only [Nat.toDigitsCore] at hc
    have hd : Nat.digitChar (n % 10) ≠ '_' :=
      digitChar_ne_underscore (n % 10) (Nat.mod_lt n (by decide))
    by_cases hz : n / 10 = 0
    · rw [if_pos hz] at hc
      rw [List.mem_cons] at hc
      rcases hc with rfl | hc
      · exact hd
      · exact hacc c hc
    · rw [if_neg hz] at hc
      exact ih (n / 10) (Nat.digitChar (n % 10) :: acc)
        (by
          intro c' hc'
          rw [List.mem_cons] at hc'
          rcases hc' with rfl | hc'
          · exact hd
          · exact hacc c' hc') c hc

theorem natStr_ne_underscore (n : Nat) : ∀ c ∈ natStr n, c ≠ '_' :=
  toDigitsCore_ne_underscore (n + 1) n [] (by intro c hc; cases hc)

theorem splitAfterFirstUnderscore_append (pre post : List Char)
    (hpre : ∀ c ∈ pre, c ≠ '_') :
    splitAfterFirstUnderscore (pre ++ '_' :: post) = some post := by
  induction pre with
  | nil => simp [splitAfterFirstUnderscore]
  | cons c rest ih =>
    have hc : c ≠ '_' := hpre c (List.mem_cons_self c rest)
    simp only [List.cons_append, splitAfterFirstUnderscore, if_neg hc]
    exact ih (fun c' hc' => hpre c' (List.mem_cons_of_mem c hc'))

/-- **C8**. For every generated combination list and every batch id, the
sub-job name is `B{batch_id}_{name}` and splitting it on the first `_`
(exactly as the reconciler does with `param_id.split('_', 1)[1]`) recovers
the combination's original name — even when the name itself contains `_`
separators, since the decimal batch id contains no underscore. -/
theorem sub_job_name_roundtrip (combos : List ParamCombo) (batchId paramId : Nat)
    (h : paramId < combos.length) :
    getSubJobName combos batchId paramId
        = 'B' :: natStr batchId ++ '_' :: (combos.get ⟨paramId, h⟩).name ∧
    splitAfterFirstUnderscore (getSubJobName combos batchId paramId)
        = some (combos.get ⟨paramId, h⟩).name := by
  constructor
  · unfold getSubJobName
    rw [dif_pos h]
  · unfold getSubJobName
    rw [dif_pos h]
    have hB : ('B' : Char) ≠ '_' := by decide
    simp only [splitAfterFirstUnderscore, if_neg hB]
    exact splitAfterFirstUnderscore_append (natStr batchId)
      ((combos.get ⟨paramId, h⟩).name) (natStr_ne_underscore batchId)

/-- Witness for `sub_job_name_roundtrip`: batch 3 with the name
`T298_P100000.0` (which itself contains underscores) round-trips. -/
theorem sub_job_name_roundtrip_witness :
    (0 < ([⟨0, "T298_P100000.0".toList, []⟩] : List ParamCombo).length) ∧
    splitAfterFirstUnderscore
        (getSubJobName [⟨0, "T298_P100000.0".toList, []⟩] 3 0)
      = some "T298_P100000.0".toList := by
  refine ⟨by decide, ?_⟩
  exact (sub_job_name_roundtrip [⟨0, "T298_P100000.0".toList, []⟩] 3 0 (by decide)).2

/-- Python's `key.lower()`. -/
def toLowerStr (s : List Char) : List Char := s.map Char.toLower

/-- Python's substring test `needle in hay`. -/
def isSubstrOf (needle hay : List Char) : Bool :=
  hay.tails.any (fun t => needle.isPrefixOf t)

/-- The per-key abbreviation of `ParameterMatrix._generate_param_name`
(parameter_matrix.py 92-105): `temperature` → `T`, `pressure` → `P`, a key
containing `co2` → `CO2`, a key containing `n2` → `N2`, otherwise the first
3 characters of the key uppercased (the whole key uppercased when it has at
most 3 characters), each followed by the value's Python string rendering. -/
def paramNamePart (key value : List Char) : List Char :=
  let kl := toLowerStr key
  if kl = "temperature".toList then 'T' :: value
  else if kl = "pressure".toList then 'P' :: value
  else if isSubstrOf "co2".toList kl then "CO2".toList ++ value
  else if isSubstrOf "n2".toList kl then "N2".toList ++ value
  else (if key.length > 3 then (key.take 3).map Char.toUpper
        else key.map Char.toUpper) ++ value

/-- Embedding of `ParameterMatrix._generate_param_name`
(parameter_matrix.py 81-107): abbreviation parts joined with `_`, or
`default` when there are no parameters. -/
def generateParamName (params : List (List Char × List Char)) : List Char :=
  let parts := params.map (fun kv => paramNamePart kv.1 kv.2)
  if parts.isEmpty then "default".toList
  else List.intercalate "_".toList parts

/-- `itertools.product(*param_values)` in its enumeration order: the first
axis varies slowest. -/
def cartProduct : List (List (List Char)) → List (List (List Char))
  | [] => [[]]
  | vs :: rest => vs.flatMap (fun v => (cartProduct rest).map (fun combo => v :: combo))

/-- Embedding of `ParameterMatrix._generate_combinations`
(parameter_matrix.py 44-79).  `parameters` is the axes dict as an
association list in insertion order (Python dicts iterate in insertion
order); values are carried as their Python string rendering.  An empty axes
dict yields the single default combination; mode `all` enumerates the
cartesian product with `param_id` equal to the enumeration position; mode
`custom` numbers the custom entries in listed order (an entry without a
name gets `custom_{i}`); any other mode yields no combinations. -/
def generateCombinations (parameters : List (List Char × List (List Char)))
    (mode : List Char)
    (customCombos : List (Option (List Char) × List (List Char × List Char))) :
    List ParamCombo :=
  if parameters.isEmpty then [⟨0, "default".toList, []⟩]
  else if mode = "all".toList then
    (cartProduct (parameters.map (·.2))).enum.map
      (fun p => ⟨p.1, generateParamName ((parameters.map (·.1)).zip p.2),
        (parameters.map (·.1)).zip p.2⟩)
  else if mode = "custom".toList then
    customCombos.enum.map (fun p =>
      ⟨p.1, (p.2.1).getD ("custom_".toList ++ natStr p.1), p.2.2⟩)
  else []

theorem length_flatMap_const {α β : Type} (l : List α) (f : α → List β) (k : Nat)
    (h : ∀ a ∈ l, (f a).length = k) :
    (l.flatMap f).length = l.length * k := by
  induction l with
  | nil => simp
  | cons a l ih =>
    simp only [List.flatMap_cons, List.length_append, List.length_cons]
    rw [h a (List.mem_cons_self a l), ih (fun a' ha' => h a' (List.mem_cons_of_mem a ha'))]
    ring

theorem cartProduct_length (ls : List (List (List Char))) :
    (cartProduct ls).length = (ls.map List.length).prod := by
  induction ls with
  | nil => simp [cartProduct]
  | cons vs rest ih =>
    simp only [cartProduct, List.map_cons, List.prod_cons]
    rw [length_flatMap_const vs _ (cartProduct rest).length
      (fun a _ => by simp), ih]

theorem generateCombinations_all (parameters : List (List Char × List (List Char)))
    (customCombos : List (Option (List Char) × List (List Char × List Char)))
    (h : parameters ≠ []) :
    generateCombinations parameters "all".toList customCombos =
      (cartProduct (parameters.map (·.2))).enum.map
        (fun p => ⟨p.1, generateParamName ((parameters.map (·.1)).zip p.2),
          (parameters.map (·.1)).zip p.2⟩) := by
  unfold generateCombinations
  rw [if_neg (by simpa using h), if_pos rfl]

/-- **C9**. With mode `all`, parameter-matrix expansion enumerates the
cartesian product of the axis value lists in axis-insertion order, assigns
`param_id` equal to the enumeration position (so the ids are `0..count-1`
with `count` the product of the axis sizes), and names each combination by
the abbreviation rule; in particular axes
`{temperature: [298, 308], pressure: [1e5]}` (values rendered by Python as
`298`, `308`, `100000.0`) yield exactly the two combinations
`T298_P100000.0` and `T308_P100000.0` with `param_id` 0 and 1. -/
theorem parameter_matrix_all_mode (parameters : List (List Char × List (List Char)))
    (customCombos : List (Option (List Char) × List (List Char × List Char)))
    (h : parameters ≠ []) :
    (generateCombinations parameters "all".toList customCombos).length
        = (parameters.map (fun kv => kv.2.length)).prod ∧
    (generateCombinations parameters "all".toList customCombos).map (·.param_id)
        = List.range (parameters.map (fun kv => kv.2.length)).prod ∧
    (∀ c ∈ generateCombinations parameters "all".toList customCombos,
        c.name = generateParamName c.parameters) ∧
    generateCombinations
        [("temperature".toList, ["298".toList, "308".toList]),
         ("pressure".toList, ["100000.0".toList])] "all".toList []
      = [⟨0, "T298_P100000.0".toList,
            [("temperature".toList, "298".toList),
             ("pressure".toList, "100000.0".toList)]⟩,
         ⟨1, "T308_P100000.0".toList,
            [("temperature".toList, "308".toList),
             ("pressure".toList, "100000.0".toList)]⟩] := by
  have hprod : (parameters.map (fun kv => kv.2.length)).prod
      = (cartProduct (parameters.map (·.2))).length := by
    rw [cartProduct_length, List.map_map]
    rfl
  refine ⟨?_, ?_, ?_, by decide⟩
  · rw [generateCombinations_all parameters customCombos h, hprod]
    simp [List.enum_length]
  · rw [generateCombinations_all parameters customCombos h, hprod, List.map_map]
    have : ((fun (c : ParamCombo) => c.param_id) ∘
        (fun p : Nat × List (List Char) =>
          (⟨p.1, generateParamName ((parameters.map (·.1)).zip p.2),
            (parameters.map (·.1)).zip p.2⟩ : ParamCombo)))
        = Prod.fst := rfl
    rw [this, List.enum_map_fst]
  · intro c hc
    rw [generateCombinations_all parameters customCombos h] at hc
    rw [List.mem_map] at hc
    rcases hc with ⟨p, _, rfl⟩
    rfl

/-- Witness for `parameter_matrix_all_mode` at the Scenario-C axes. -/
theorem parameter_matrix_all_mode_witness :
    ([("temperature".toList, ["298".toList, "308".toList]),
      ("pressure".toList, ["100000.0".toList])]
        : List (List Char × List (List Char))) ≠ [] ∧
    (generateCombinations
        [("temperature".toList, ["298".toList, "308".toList]),
         ("pressure".toList, ["100000.0".toList])] "all".toList []).length = 2 := by
  refine ⟨by decide, ?_⟩
  have := (parameter_matrix_all_mode
    [("temperature".toList, ["298".toList, "308".toList]),
     ("pressure".toList, ["100000.0".toList])] [] (by decide)).1
  rw [this]
  decide

/-! ## Duplicate cleanup (`JobTracker.clean_job_status`, job_tracker.py 1319-1400)

The status table is the CSV with columns
`batch_id, job_id, param_combination_id, status, submission_time,
completion_time, workflow_stage`; `param_combination_id` is the string
`'NA'` for plain batch rows (the convention the tracker itself writes). -/

/-- One row of the status table as `clean_job_status` sees it. -/
structure PRow where
  batchId : Nat
  jobId : String
  paramCombId : String
  status : Status
  submissionTime : Option Nat
  completionTime : Option Nat
  workflowStage : String
deriving DecidableEq, Inhabited

/-- `status in ['PENDING', 'RUNNING']` — an "active" row. -/
def isActive (r : PRow) : Prop :=
  r.status = Status.PENDING ∨ r.status = Status.RUNNING

instance (r : PRow) : Decidable (isActive r) := by
  unfold isActive
  infer_instance

/-- The groupby key `(batch_id, param_combination_id)`. -/
def rowKey (r : PRow) : Nat × String := (r.batchId, r.paramCombId)

/-- Indices of the active rows of the `(batch_id, param_combination_id)`
group `k`, in table order (the order pandas' groupby preserves). -/
def activeIdxs (t : List PRow) (k : Nat × String) : List Nat :=
  (List.range t.length).filter
    (fun i => decide (rowKey (t.getD i default) = k ∧ isActive (t.getD i default)))

/-- Indices of the `PENDING` rows among the active rows of group `k`. -/
def pendIdxs (t : List PRow) (k : Nat × String) : List Nat :=
  (activeIdxs t k).filter (fun i => decide ((t.getD i default).status = Status.PENDING))

/-- `sort_values('submission_time', ascending=True)` comparison: `NaT`
sorts last (`na_position='last'`), so `none` is never smaller. -/
def submLtAsc : Option Nat → Option Nat → Bool
  | some x, some y => x < y
  | some _, none => true
  | none, _ => false

/-- `sort_values('submission_time', ascending=False)` comparison: `NaT`
still sorts last, so `none` is never larger. -/
def submGtDesc : Option Nat → Option Nat → Bool
  | some x, some y => y < x
  | some _, none => true
  | none, _ => false

/-- The index `sorted.index[0]` selects: an element of `l` whose key is not
beaten by any other (first such element for ties, matching a stable sort;
the pandas sort is not stable for ties, so theorems only use the
minimality property, which any sort order guarantees). -/
def bestIdx (keyOf : Nat → Option Nat) (lt : Option Nat → Option Nat → Bool) :
    List Nat → Option Nat
  | [] => none
  | i :: rest =>
    match bestIdx keyOf lt rest with
    | none => some i
    | some j => if lt (keyOf j) (keyOf i) then some j else some i

/-- The row `clean_job_status` keeps for a duplicate group
(job_tracker.py 1352-1368): the oldest-submitted `PENDING` row when any
`PENDING` row exists, otherwise the newest-submitted active (`RUNNING`)
row. -/
def keepIdx (t : List PRow) (k : Nat × String) : Option Nat :=
  if pendIdxs t k ≠ [] then
    bestIdx (fun i => (t.getD i default).submissionTime) submLtAsc (pendIdxs t k)
  else
    bestIdx (fun i => (t.getD i default).submissionTime) submGtDesc (activeIdxs t k)

/-- Embedding of `JobTracker.clean_job_status` (job_tracker.py 1319-1400)
as a function on the table: every active row of a group with more than one
active row, other than the kept one, is set to `CANCELLED` with a
completion timestamp.  (The Python loop iterates `groupby` groups computed
from the original table and mutates disjoint row sets, so the per-row map
is equivalent; the `scancel` side effect touches only the scheduler.) -/
def cleanJobStatus (now : Nat) (t : List PRow) : List PRow :=
  t.enum.map (fun p =>
    if isActive p.2 ∧ 1 < (activeIdxs t (rowKey p.2)).length ∧
        keepIdx t (rowKey p.2) ≠ some p.1 then
      { p.2 with status := Status.CANCELLED, completionTime := some now }
    else p.2)

theorem bestIdx_mem (keyOf : Nat → Option Nat) (lt : Option Nat → Option Nat → Bool)
    (l : List Nat) (j : Nat) (h : bestIdx keyOf lt l = some j) : j ∈ l := by
  induction l generalizing j with
  | nil => simp [bestIdx] at h
  | cons i rest ih =>
    simp only [bestIdx] at h
    cases hb : bestIdx keyOf lt rest with
    | none =>
      rw [hb] at h
      dsimp only at h
      simp only [Option.some.injEq] at h
      exact h ▸ List.mem_cons_self i rest
    | some j' =>
      rw [hb] at h
      dsimp only at h
      split_ifs at h with hlt
      · simp only [Option.some.injEq] at h
        exact h ▸ List.mem_cons_of_mem i (ih j' hb)
      · simp only [Option.some.injEq] at h
        exact h ▸ List.mem_cons_self i rest

theorem bestIdx_isSome (keyOf : Nat → Option Nat) (lt : Option Nat → Option Nat → Bool)
    (l : List Nat) (h : l ≠ []) : ∃ j, bestIdx keyOf lt l = some j := by
  cases l with
  | nil => exact absurd rfl h
  | cons i rest =>
    simp only [bestIdx]
    cases hb : bestIdx keyOf lt rest with
    | none => exact ⟨i, rfl⟩
    | some j' =>
      dsimp only
      split_ifs with hlt
      · exact ⟨j', rfl⟩
      · exact ⟨i, rfl⟩

theorem bestIdx_minimal (keyOf : Nat → Option Nat) (lt : Option Nat → Option Nat → Bool)
    (hirr : ∀ a, lt a a = false)
    (hasym : ∀ a b, lt a b = true → lt b a = false)
    (hneg : ∀ a b c, lt a b = false → lt b c = false → lt a c = false)
    (l : List Nat) (j : Nat) (h : bestIdx keyOf lt l = some j) :
    ∀ i ∈ l, lt (keyOf i) (keyOf j) = false := by
  induction l generalizing j with
  | nil => simp [bestIdx] at h
  | cons i rest ih =>
    simp only [bestIdx] at h
    cases hb : bestIdx keyOf lt rest with
    | none =>
      rw [hb] at h
      dsimp only at h
      simp only [Option.some.injEq] at h
      subst h
      intro i' hi'
      rcases List.mem_cons.mp hi' with rfl | hi'
      · exact hirr _
      · cases rest with
        | nil => cases hi'
        | cons a b =>
          exfalso
          rcases bestIdx_isSome keyOf lt (a :: b) (by simp) with ⟨j0, hj0⟩
          rw [hj0] at hb
          cases hb
    | some j' =>
      rw [hb] at h
      dsimp only at h
      split_ifs at h with hlt
      · simp only [Option.some.injEq] at h
        subst h
        intro i' hi'
        rcases List.mem_cons.mp hi' with rfl | hi'
        · exact hasym _ _ hlt
        · exact ih j' hb i' hi'
      · simp only [Option.some.injEq] at h
        subst h
        intro i' hi'
        rcases List.mem_cons.mp hi' with rfl | hi'
        · exact hirr _
        · have hmin := ih j' hb i' hi'
          rw [Bool.not_eq_true] at hlt
          exact hneg (keyOf i') (keyOf j') (keyOf i) hmin hlt

theorem submLtAsc_irrefl (a : Option Nat) : submLtAsc a a = false := by
  cases a <;> simp [submLtAsc]

theorem submLtAsc_asymm (a b : Option Nat) (h : submLtAsc a b = true) :
    submLtAsc b a = false := by
  cases a <;> cases b <;> simp_all [submLtAsc] <;> omega

theorem submLtAsc_negtrans (a b c : Option Nat) (h1 : submLtAsc a b = false)
    (h2 : submLtAsc b c = false) : submLtAsc a c = false := by
  cases a <;> cases b <;> cases c <;> simp_all [submLtAsc] <;> omega

theorem submGtDesc_irrefl (a : Option Nat) : submGtDesc a a = false := by
  cases a <;> simp [submGtDesc]

theorem submGtDesc_asymm (a b : Option Nat) (h : submGtDesc a b = true) :
    submGtDesc b a = false := by
  cases a <;> cases b <;> simp_all [submGtDesc] <;> omega

theorem submGtDesc_negtrans (a b c : Option Nat) (h1 : submGtDesc a b = false)
    (h2 : submGtDesc b c = false) : submGtDesc a c = false := by
  cases a <;> cases b <;> cases c <;> simp_all [submGtDesc] <;> omega

theorem cleanJobStatus_length (now : Nat) (t : List PRow) :
    (cleanJobStatus now t).length = t.length := by
  simp [cleanJobStatus]

theorem cleanJobStatus_rowAt (now : Nat) (t : List PRow) (i : Nat) (h : i < t.length) :
    (cleanJobStatus now t).getD i default =
      (if isActive (t.getD i default) ∧
          1 < (activeIdxs t (rowKey (t.getD i default))).length ∧
          keepIdx t (rowKey (t.getD i default)) ≠ some i then
        { t.getD i default with
          status := Status.CANCELLED, completionTime := some now }
      else t.getD i default) := by
  have h' : i < (cleanJobStatus now t).length := by rw [cleanJobStatus_length]; exact h
  rw [List.getD_eq_getElem _ _ h', List.getD_eq_getElem _ _ h]
  unfold cleanJobStatus
  simp only [List.getElem_map, List.getElem_enum]

theorem mem_activeIdxs (t : List PRow) (k : Nat × String) (i : Nat) :
    i ∈ activeIdxs t k ↔
      i < t.length ∧ rowKey (t.getD i default) = k ∧ isActive (t.getD i default) := by
  simp [activeIdxs, List.mem_filter, List.mem_range, decide_eq_true_eq]

theorem activeIdxs_nodup (t : List PRow) (k : Nat × String) :
    (activeIdxs t k).Nodup :=
  (List.nodup_range _).filter _

theorem length_filter_eq_le_one (l : List Nat) (hnd : l.Nodup) (a : Nat) :
    (l.filter (fun i => decide (a = i))).length ≤ 1 := by
  induction l with
  | nil => simp
  | cons x xs ih =>
    rw [List.nodup_cons] at hnd
    by_cases hax : a = x
    · subst hax
      have hempty : xs.filter (fun i => decide (a = i)) = [] := by
        rw [List.filter_eq_nil_iff]
        intro b hb
        simp only [decide_eq_true_eq]
        intro hab
        exact hnd.1 (hab ▸ hb)
      simp [List.filter_cons, hempty]
    · simp only [List.filter_cons, decide_eq_true_eq, hax, if_false]
      exact ih hnd.2

theorem keepIdx_isSome (t : List PRow) (k : Nat × String)
    (hne : activeIdxs t k ≠ []) : ∃ keep, keepIdx t k = some keep := by
  unfold keepIdx
  split_ifs with hp
  · exact bestIdx_isSome _ _ _ hp
  · exact bestIdx_isSome _ _ _ hne

theorem pendIdxs_subset (t : List PRow) (k : Nat × String) (i : Nat)
    (h : i ∈ pendIdxs t k) : i ∈ activeIdxs t k :=
  (List.mem_filter.mp h).1

theorem keepIdx_mem (t : List PRow) (k : Nat × String) (keep : Nat)
    (h : keepIdx t k = some keep) : keep ∈ activeIdxs t k := by
  unfold keepIdx at h
  split_ifs at h with hp
  · exact pendIdxs_subset t k keep (bestIdx_mem _ _ _ _ h)
  · exact bestIdx_mem _ _ _ _ h

theorem isActive_cancelled (r : PRow) (now : Nat) :
    ¬ isActive { r with
      status := Status.CANCELLED, completionTime := some now } := by
  intro h
  rcases h with h | h <;> cases h

/-- With duplicates present in group `k`, the cleaned table's active rows of
`k` are exactly the kept index. -/
theorem activeIdxs_clean_of_dup (now : Nat) (t : List PRow) (k : Nat × String)
    (hg : 1 < (activeIdxs t k).length) :
    activeIdxs (cleanJobStatus now t) k
      = (activeIdxs t k).filter (fun i => decide (keepIdx t k = some i)) := by
  unfold activeIdxs
  rw [cleanJobStatus_length, List.filter_filter]
  apply List.filter_congr
  intro i hi
  rw [List.mem_range] at hi
  rw [cleanJobStatus_rowAt now t i hi]
  by_cases hcond : isActive (t.getD i default) ∧
      1 < (activeIdxs t (rowKey (t.getD i default))).length ∧
      keepIdx t (rowKey (t.getD i default)) ≠ some i
  · rw [if_pos hcond]
    simp only [← Bool.decide_and]
    rw [decide_eq_decide]
    constructor
    · intro hcontra
      exact absurd hcontra.2 (isActive_cancelled _ _)
    · rintro ⟨hkeep, hkk, hact⟩
      exfalso
      rw [hkk] at hcond
      exact hcond.2.2 hkeep
  · rw [if_neg hcond]
    simp only [← Bool.decide_and]
    rw [decide_eq_decide]
    constructor
    · rintro ⟨hkk, hact⟩
      refine ⟨?_, hkk, hact⟩
      by_contra hne
      exact hcond ⟨hact, by rw [hkk]; exact hg, by rw [hkk]; exact hne⟩
    · rintro ⟨_, hkk, hact⟩
      exact ⟨hkk, hact⟩

/-- Without duplicates in group `k`, the cleaned table's active rows of `k`
are unchanged. -/
theorem activeIdxs_clean_of_nodup (now : Nat) (t : List PRow) (k : Nat × String)
    (hg : ¬ 1 < (activeIdxs t k).length) :
    activeIdxs (cleanJobStatus now t) k = activeIdxs t k := by
  unfold activeIdxs
  rw [cleanJobStatus_length]
  apply List.filter_congr
  intro i hi
  rw [List.mem_range] at hi
  rw [cleanJobStatus_rowAt now t i hi]
  by_cases hcond : isActive (t.getD i default) ∧
      1 < (activeIdxs t (rowKey (t.getD i default))).length ∧
      keepIdx t (rowKey (t.getD i default)) ≠ some i
  · rw [if_pos hcond]
    simp only [← Bool.decide_and]
    rw [decide_eq_decide]
    constructor
    · intro hcontra
      exact absurd hcontra.2 (isActive_cancelled _ _)
    · rintro ⟨hkk, hact⟩
      exfalso
      rw [hkk] at hcond
      exact hg hcond.2.1
  · rw [if_neg hcond]

theorem length_filter_eqSomeIdx_le_one (l : List Nat) (hnd : l.Nodup) (o : Option Nat) :
    (l.filter (fun i => decide (o = some i))).length ≤ 1 := by
  cases o with
  | none => simp
  | some a =>
    have heq : (l.filter (fun i => decide (some a = some i)))
        = l.filter (fun i => decide (a = i)) := by
      apply List.filter_congr
      intro i _
      simp
    rw [heq]
    exact length_filter_eq_le_one l hnd a

/-- **C10**. After `clean_job_status` (job_tracker.py 1319-1400) returns,
every `(batch_id, param_combination_id)` group has at most one active
(`PENDING`/`RUNNING`) row; for a group that entered with several active
rows, the surviving row is the one `keepIdx` selects — a `PENDING` row of
minimal submission time when any `PENDING` row exists (oldest submitted,
`NaT` sorting last), otherwise a `RUNNING` row of maximal submission time
(newest submitted) — it is left unchanged, and every other previously
active row of the group is set to `CANCELLED` with the completion
timestamp. -/
theorem clean_job_status_dedup (now : Nat) (t : List PRow) :
    (∀ k, (activeIdxs (cleanJobStatus now t) k).length ≤ 1) ∧
    (∀ k, 1 < (activeIdxs t k).length →
      ∃ keep, keepIdx t k = some keep ∧ keep ∈ activeIdxs t k ∧
        (cleanJobStatus now t).getD keep default = t.getD keep default ∧
        (pendIdxs t k ≠ [] →
          (t.getD keep default).status = Status.PENDING ∧
          ∀ i ∈ pendIdxs t k,
            submLtAsc (t.getD i default).submissionTime
              (t.getD keep default).submissionTime = false) ∧
        (pendIdxs t k = [] →
          (t.getD keep default).status = Status.RUNNING ∧
          ∀ i ∈ activeIdxs t k,
            submGtDesc (t.getD i default).submissionTime
              (t.getD keep default).submissionTime = false) ∧
        (∀ i ∈ activeIdxs t k, i ≠ keep →
          (cleanJobStatus now t).getD i default =
            { t.getD i default with
              status := Status.CANCELLED, completionTime := some now })) := by
  constructor
  · intro k
    by_cases hg : 1 < (activeIdxs t k).length
    · rw [activeIdxs_clean_of_dup now t k hg]
      exact length_filter_eqSomeIdx_le_one _ (activeIdxs_nodup t k) _
    · rw [activeIdxs_clean_of_nodup now t k hg]
      omega
  · intro k hg
    have hact_ne : activeIdxs t k ≠ [] := by
      intro he
      rw [he] at hg
      simp at hg
    obtain ⟨keep, hkeep⟩ := keepIdx_isSome t k hact_ne
    have hkmem := keepIdx_mem t k keep hkeep
    have hkmem' := (mem_activeIdxs t k keep).mp hkmem
    refine ⟨keep, hkeep, hkmem, ?_, ?_, ?_, ?_⟩
    · rw [cleanJobStatus_rowAt now t keep hkmem'.1]
      rw [if_neg]
      intro hcond
      rw [hkmem'.2.1] at hcond
      exact hcond.2.2 hkeep
    · intro hp
      have hkeep' : bestIdx (fun i => (t.getD i default).submissionTime) submLtAsc
          (pendIdxs t k) = some keep := by
        unfold keepIdx at hkeep
        rw [if_pos hp] at hkeep
        exact hkeep
      constructor
      · have hmem := bestIdx_mem _ _ _ _ hkeep'
        have := (List.mem_filter.mp hmem).2
        simpa using this
      · intro i hi
        exact bestIdx_minimal _ _ submLtAsc_irrefl submLtAsc_asymm submLtAsc_negtrans
          _ _ hkeep' i hi
    · intro hp0
      have hkeep' : bestIdx (fun i => (t.getD i default).submissionTime) submGtDesc
          (activeIdxs t k) = some keep := by
        unfold keepIdx at hkeep
        rw [if_neg (fun hne => hne hp0)] at hkeep
        exact hkeep
      constructor
      · rcases hkmem'.2.2 with hP | hR
        · exfalso
          have hmem : keep ∈ pendIdxs t k := by
            apply List.mem_filter.mpr
            exact ⟨hkmem, by simp only [decide_eq_true_eq]; exact hP⟩
          rw [hp0] at hmem
          cases hmem
        · exact hR
      · intro i hi
        exact bestIdx_minimal _ _ submGtDesc_irrefl submGtDesc_asymm submGtDesc_negtrans
          _ _ hkeep' i hi
    · intro i hi hne
      have hi' := (mem_activeIdxs t k i).mp hi
      rw [cleanJobStatus_rowAt now t i hi'.1]
      rw [if_pos]
      refine ⟨hi'.2.2, ?_, ?_⟩
      · rw [hi'.2.1]
        exact hg
      · rw [hi'.2.1, hkeep]
        intro hc
        simp only [Option.some.injEq] at hc
        exact hne hc.symm

/-- Witness for `clean_job_status_dedup`: two `PENDING` rows for
`(batch 1, 'NA')`; the cleanup keeps the older submission. -/
theorem clean_job_status_dedup_witness :
    ∃ keep,
      keepIdx [(⟨1, "101", "NA", Status.PENDING, some 5, none, "pending"⟩ : PRow),
               ⟨1, "102", "NA", Status.PENDING, some 3, none, "pending"⟩] (1, "NA")
          = some keep ∧
      keep ∈ activeIdxs
          [(⟨1, "101", "NA", Status.PENDING, some 5, none, "pending"⟩ : PRow),
           ⟨1, "102", "NA", Status.PENDING, some 3, none, "pending"⟩] (1, "NA") := by
  obtain ⟨keep, h1, h2, _⟩ := (clean_job_status_dedup 99
    [(⟨1, "101", "NA", Status.PENDING, some 5, none, "pending"⟩ : PRow),
     ⟨1, "102", "NA", Status.PENDING, some 3, none, "pending"⟩]).2 (1, "NA") (by decide)
  exact ⟨keep, h1, h2⟩

/-! ## Scheduler gateway (`job_scheduler.py`)

Each `subprocess.run` call is modelled by its outcome: `ok stdout` (the
command ran; with `check=True` this means it exited 0), `err`
(`CalledProcessError`: the command exited nonzero under `check=True`), or
`missing` (`FileNotFoundError`: the executable is not installed).  Python
exceptions that escape the function are modelled with `Except`. -/

inductive Spawn where
  | ok (stdout : String)
  | err
  | missing
deriving DecidableEq

/-- Outcome of a `subprocess.run` call without `check=True` (it cannot
raise `CalledProcessError`; the return code is inspected manually). -/
inductive QSpawn where
  | ok (stdout : String) (rc : Int)
  | missing
deriving DecidableEq

inductive PyExn where
  | fileNotFound
deriving DecidableEq

/-- The `sacct` fallback parse of `get_job_status`
(job_scheduler.py 1470-1474): the first nonempty line of the stripped
output that contains no `.` (excluding `.batch`/`.extern` accounting
steps). -/
def sacctFirstState (sout : String) : Option String :=
  (sout.splitOn "\n").find? (fun st => decide (st ≠ "") && !(st.contains '.'))

/-- The scheduler-query part of `JobScheduler.get_job_status`
(job_scheduler.py 1442-1479): `dry-run` short-circuits; `squeue --job`
output (stripped) is returned if nonempty, else `sacct` is consulted;
a `CalledProcessError` from either command is caught and degrades to
`UNKNOWN`, but a `FileNotFoundError` is not caught and propagates. -/
def statusFromScheduler (jobId : String) (squeueRes sacctRes : Spawn) :
    Except PyExn String :=
  if jobId = "dry-run" then .ok "DRY-RUN"
  else
    match squeueRes with
    | .ok out =>
      if out.trim ≠ "" then .ok out.trim
      else
        match sacctRes with
        | .ok sout =>
          match sacctFirstState sout.trim with
          | some st => .ok st
          | none => .ok "UNKNOWN"
        | .err => .ok "UNKNOWN"
        | .missing => .error .fileNotFound
    | .err => .ok "UNKNOWN"
    | .missing => .error .fileNotFound

/-- Embedding of `JobScheduler.get_job_status` (job_scheduler.py
1420-1479).  `dirMarker` is `none` when no `batch_output_dir` argument was
given, `some none` when the directory was given but holds no
`exit_status.log`, and `some (some content)` when the marker exists with
the given (stripped, readable) content: the marker is consulted first and
short-circuits the scheduler queries. -/
def get_job_status_gw (jobId : String) (dirMarker : Option (Option String))
    (squeueRes sacctRes : Spawn) : Except PyExn String :=
  match dirMarker with
  | some (some content) => .ok (if content = "0" then "COMPLETED" else "FAILED")
  | _ => statusFromScheduler jobId squeueRes sacctRes

/-- `re.search(r"Submitted batch job (\d+)", output)`: scan for the first
position where the literal is followed by at least one digit; the digit
run there is the job id. -/
def searchSubmittedId : List Char → Option (List Char)
  | [] => none
  | c :: rest =>
    if "Submitted batch job ".toList.isPrefixOf (c :: rest) then
      let tail := (c :: rest).drop "Submitted batch job ".toList.length
      let ds := tail.takeWhile Char.isDigit
      if ds ≠ [] then some ds else searchSubmittedId rest
    else searchSubmittedId rest

/-- The fallback `re.search(r"(\d+)", output)`: the first digit run. -/
def firstDigitRun : List Char → Option (List Char)
  | [] => none
  | c :: rest =>
    if c.isDigit then some ((c :: rest).takeWhile Char.isDigit)
    else firstDigitRun rest

/-- Job-id extraction of `submit_job` (job_scheduler.py 1390-1399). -/
def extractJobId (output : List Char) : Option (List Char) :=
  match searchSubmittedId output with
  | some ds => some ds
  | none => firstDigitRun output

/-- Embedding of `JobScheduler.submit_job` (job_scheduler.py 1348-1418).
`scriptExists` is false when `script_path` is `None` or the file does not
exist; `sbatchRes` is the outcome of the `sbatch` call.  Returns `none`
for every failure handled in the code (missing script, nonzero `sbatch`
exit, unparsable output); a missing `sbatch` executable propagates as a
`FileNotFoundError`.  The CSV side effects on success do not affect the
returned value and are not modelled here. -/
def submit_job_gw (scriptExists dryRun : Bool) (sbatchRes : Spawn) :
    Except PyExn (Option (List Char)) :=
  if ¬ scriptExists then .ok none
  else if dryRun then .ok (some "dry-run".toList)
  else
    match sbatchRes with
    | .ok out =>
      let output := out.trim.toList
      if isSubstrOf "Submitted batch job".toList output then
        match extractJobId output with
        | some jid => .ok (some jid)
        | none => .ok none
      else .ok none
    | .err => .ok none
    | .missing => .error .fileNotFound

/-- `squeue`/`bjobs` line parse of `get_queue_jobs`
(job_scheduler.py 1967-1970): nonempty stripped lines of the stripped
stdout. -/
def parseQueueLines (sout : String) : List String :=
  ((sout.trim.splitOn "\n").map String.trim).filter (fun l => decide (l ≠ ""))

/-- `re.finditer(r"Job Id:\s*(\d+)", stdout)` of the PBS/Torque branch. -/
def pbsJobIds : List Char → List String
  | [] => []
  | c :: rest =>
    if "Job Id:".toList.isPrefixOf (c :: rest) then
      let tail := ((c :: rest).drop "Job Id:".toList.length).dropWhile
        (fun ch => ch.isWhitespace)
      let ds := tail.takeWhile Char.isDigit
      if ds ≠ [] then String.mk ds :: pbsJobIds rest else pbsJobIds rest
    else pbsJobIds rest

/-- Embedding of `JobScheduler.get_queue_jobs` (job_scheduler.py
1948-2002): the set of queued job ids (as a list; the Python code collects
a set), one branch per scheduler type; subprocess errors and missing
executables are caught (line 1999) and yield the ids collected so far
(the empty set). -/
def get_queue_jobs_gw (schedulerType : String) (res : QSpawn) :
    Except PyExn (List String) :=
  let stype := schedulerType.toLower
  if stype = "slurm" then
    match res with
    | .ok sout rc => if rc = 0 then .ok (parseQueueLines sout) else .ok []
    | .missing => .ok []
  else if stype = "pbs" ∨ stype = "torque" then
    match res with
    | .ok sout rc => if rc = 0 then .ok (pbsJobIds sout.toList) else .ok []
    | .missing => .ok []
  else if stype = "lsf" then
    match res with
    | .ok sout rc => if rc = 0 then .ok (parseQueueLines sout) else .ok []
    | .missing => .ok []
  else .ok []

/-- The claim as stated is false: a missing scheduler executable
(`FileNotFoundError`, listed by the spec as a failure that must degrade to
`UNKNOWN`/`None`) is *not* caught by `get_job_status` or `submit_job` —
their `except` clauses catch only `CalledProcessError` — so the exception
propagates to the caller. -/
theorem scheduler_gateway_raises :
    get_job_status_gw "12345" none .missing (.ok "") = .error .fileNotFound ∧
    submit_job_gw true false .missing = .error .fileNotFound := by
  constructor <;> rfl

theorem statusFromScheduler_total (jobId : String) (sq sa : Spawn)
    (h1 : sq ≠ .missing) (h2 : sa ≠ .missing) :
    ∃ s, statusFromScheduler jobId sq sa = .ok s := by
  unfold statusFromScheduler
  by_cases hj : jobId = "dry-run"
  · rw [if_pos hj]
    exact ⟨_, rfl⟩
  · rw [if_neg hj]
    cases sq with
    | ok out =>
      dsimp only
      by_cases ht : out.trim ≠ ""
      · rw [if_pos ht]
        exact ⟨_, rfl⟩
      · rw [if_neg ht]
        cases sa with
        | ok sout =>
          dsimp only
          cases hstate : sacctFirstState sout.trim with
          | some st => exact ⟨st, rfl⟩
          | none => exact ⟨"UNKNOWN", rfl⟩
        | err => exact ⟨_, rfl⟩
        | missing => exact absurd rfl h2
    | err => exact ⟨_, rfl⟩
    | missing => exact absurd rfl h1

/-- **C4 (amended)**. Scheduler-gateway totality, as far as the code
provides it: for every job id and marker observation, `get_job_status`
returns a status string (with `UNKNOWN` when the scheduler commands fail
with nonzero exit or report no data) as long as the `squeue`/`sacct`
*executables exist*; `submit_job` returns an `Option` (`none` on submit
failure or unparsable job id) as long as `sbatch` exists; and
`get_queue_jobs` never raises, for every scheduler type and subprocess
outcome including a missing executable.  (The unamended claim fails
because a `FileNotFoundError` propagates from status lookup and
submission: see `scheduler_gateway_raises`.) -/
theorem scheduler_gateway_totality (jobId : String) (dm : Option (Option String))
    (sq sa sb : Spawn) (se dr : Bool) (st : String) (res : QSpawn) :
    (sq ≠ .missing → sa ≠ .missing →
      ∃ s, get_job_status_gw jobId dm sq sa = .ok s) ∧
    (sb ≠ .missing → ∃ o, submit_job_gw se dr sb = .ok o) ∧
    (∃ l, get_queue_jobs_gw st res = .ok l) := by
  refine ⟨?_, ?_, ?_⟩
  · intro h1 h2
    unfold get_job_status_gw
    match dm with
    | some (some content) => exact ⟨_, rfl⟩
    | some none => exact statusFromScheduler_total jobId sq sa h1 h2
    | none => exact statusFromScheduler_total jobId sq sa h1 h2
  · intro h3
    cases se with
    | false => exact ⟨none, by simp [submit_job_gw]⟩
    | true =>
      cases dr with
      | true => exact ⟨some "dry-run".toList, by simp [submit_job_gw]⟩
      | false =>
        cases sb with
        | ok out =>
          by_cases hsub : isSubstrOf "Submitted batch job".toList out.trim.toList
          · cases hid : extractJobId out.trim.toList with
            | some jid =>
              refine ⟨some jid, ?_⟩
              unfold submit_job_gw
              rw [if_neg (by simp), if_neg (by simp)]
              dsimp only
              rw [if_pos hsub, hid]
            | none =>
              refine ⟨none, ?_⟩
              unfold submit_job_gw
              rw [if_neg (by simp), if_neg (by simp)]
              dsimp only
              rw [if_pos hsub, hid]
          · refine ⟨none, ?_⟩
            unfold submit_job_gw
            rw [if_neg (by simp), if_neg (by simp)]
            dsimp only
            rw [if_neg hsub]
        | err => exact ⟨none, by simp [submit_job_gw]⟩
        | missing => exact absurd rfl h3
  · unfold get_queue_jobs_gw
    by_cases h1 : st.toLower = "slurm"
    · simp only [h1, if_true]
      cases res with
      | ok sout rc =>
        by_cases hrc : rc = 0
        · exact ⟨parseQueueLines sout, by simp [hrc]⟩
        · exact ⟨[], by simp [hrc]⟩
      | missing => exact ⟨[], rfl⟩
    · simp only [h1, if_false]
      by_cases h2 : st.toLower = "pbs" ∨ st.toLower = "torque"
      · simp only [h2, if_true]
        cases res with
        | ok sout rc =>
          by_cases hrc : rc = 0
          · exact ⟨pbsJobIds sout.toList, by simp [hrc]⟩
          · exact ⟨[], by simp [hrc]⟩
        | missing => exact ⟨[], rfl⟩
      · simp only [h2, if_false]
        by_cases h3 : st.toLower = "lsf"
        · simp only [h3, if_true]
          cases res with
          | ok sout rc =>
            by_cases hrc : rc = 0
            · exact ⟨parseQueueLines sout, by simp [hrc]⟩
            · exact ⟨[], by simp [hrc]⟩
          | missing => exact ⟨[], rfl⟩
        · simp only [h3, if_false]
          exact ⟨[], rfl⟩

/-- Witness for `scheduler_gateway_totality` at concrete outcomes. -/
theorem scheduler_gateway_totality_witness :
    (Spawn.err ≠ Spawn.missing) ∧
    ∃ s, get_job_status_gw "777" (some none) Spawn.err (Spawn.ok "") = .ok s := by
  refine ⟨by decide, ?_⟩
  exact (scheduler_gateway_totality "777" (some none) Spawn.err (Spawn.ok "")
    Spawn.err true false "slurm" (QSpawn.ok "" 0)).1 (by decide) (by decide)

/-! ## Generated submission scripts (`job_scheduler.py`)

`_generate_parameter_workflow_steps` (job_scheduler.py 572-649) emits, for
each workflow step, a fixed sequence of shell commands.  We embed that
sequence as an AST (one constructor per emitted command; bash comments and
`echo` lines cannot change `$?` differently, so they share `echoLine`) and
give it the small-step bash semantics of exactly those commands.  `mkdir`,
`cd`, `cp` and `chmod` are assumed to succeed (their failure is not what
the claim is about). -/

inductive PCmd where
  | echoLine                      -- `echo '...'` (exit status 0)
  | mkdirP                        -- `mkdir -p {step_output_dir}` (line 588)
  | cdStep                        -- `cd {output_dir}` (line 683)
  | cpCmd                         -- `cp {script} ./{local_script}` (line 684)
  | chmodCmd                      -- `chmod +x ./{local_script}` (line 685)
  | runScript                     -- `bash ./{local_script} ...` (lines 736-738)
  | assign (v : String)           -- `{v}=$?` (lines 740 and 628)
  | rmIfZero (v : String)         -- `if [ ${v} -eq 0 ]; then rm -f ...; fi` (741-743)
  | cdBack                        -- `cd -` (line 744)
  | failGuard (v : String) (required : Bool)
      -- `if [ ${v} -ne 0 ]; then echo '❌ ...'; [required: append batch to
      -- failed_batches.txt; exit 1] fi` (lines 629-638)
  | writeMarker                   -- `echo $? > {exit_status_file}` (line 642)
deriving DecidableEq

/-- Shell state: variable bindings, the last exit status `$?`, the step's
`exit_status.log` content, whether the batch id was appended to
`failed_batches.txt`, and whether the script has `exit`ed (with what code). -/
structure ShState where
  vars : String → Int
  last : Int
  marker : Option String
  failedAppended : Bool
  exited : Option Int

def initShState : ShState :=
  { vars := fun _ => 0, last := 0, marker := none,
    failedAppended := false, exited := none }

/-- One command's effect on the shell state (`stepExit` is the exit code of
the external step script invoked by `runScript`). -/
def stepPCmd (stepExit : Int) (s : ShState) : PCmd → ShState
  | .echoLine => { s with last := 0 }
  | .mkdirP => { s with last := 0 }
  | .cdStep => { s with last := 0 }
  | .cpCmd => { s with last := 0 }
  | .chmodCmd => { s with last := 0 }
  | .runScript => { s with last := stepExit }
  | .assign v =>
      { s with vars := fun v' => if v' = v then s.last else s.vars v', last := 0 }
  | .rmIfZero _ => { s with last := 0 }
  | .cdBack => { s with last := 0 }
  | .failGuard v required =>
      if s.vars v ≠ 0 then
        if required then { s with failedAppended := true, exited := some 1 }
        else { s with last := 0 }
      else { s with last := 0 }
  | .writeMarker => { s with marker := some (toString s.last), last := 0 }

/-- Run a command list; once `exit` has happened nothing else runs. -/
def runPCmds (stepExit : Int) (s : ShState) : List PCmd → ShState
  | [] => s
  | c :: rest =>
    match s.exited with
    | some _ => s
    | none => runPCmds stepExit (stepPCmd stepExit s c) rest

/-- The command sequence `_generate_parameter_workflow_steps` emits for one
bash workflow step, split into the part before the skip-guard and the
`else` branch of the guard.  `stepVar` is
`f"{step_name.lower().replace('-','_')}_status"` (line 627);
`writesMarker` is the condition of line 641 (`step_name != 'simulation'
and 'mps_run' not in script_path`).  No template is configured for the
step, so the template block (lines 688-731) emits nothing. -/
structure GenStep where
  pre : List PCmd
  body : List PCmd

def generateParameterStep (stepVar : String) (required writesMarker : Bool) : GenStep :=
  { pre := [.echoLine, .mkdirP],
    body := [.echoLine, .cdStep, .cpCmd, .chmodCmd, .runScript,
      .assign "script_status", .rmIfZero "script_status", .cdBack,
      .assign stepVar, .failGuard stepVar required] ++
      (if writesMarker then [.writeMarker] else []) }

/-- `if [ -f {exit_status_file} ] && [ "$(cat {exit_status_file})" = "0" ]`
(line 592): skip the body when the step's marker already reads `"0"`. -/
def runGeneratedStep (stepExit : Int) (s : ShState) (g : GenStep) : ShState :=
  let s1 := runPCmds stepExit s g.pre
  match s1.marker with
  | some "0" => { s1 with last := 0 }
  | _ => runPCmds stepExit s1 g.body

/-- **C3 (the code violates the claim)**.  In the parameter workflow the
step's exit code *is* captured immediately into `script_status`
(job_scheduler.py 740), but the variable the status check and the marker
are derived from is captured only after `cd -` (line 628), so it reads 0;
the value then written to the step's `exit_status.log` is `$?` of the
preceding `if` statement (line 642), which is also 0.  Hence for *every*
exit code `e` of a required bash step, the generated script records
`script_status = e` yet writes `"0"` to the step's `exit_status.log`,
appends nothing to `failed_batches.txt`, and never executes `exit 1` —
for `e = 2` this contradicts the claim that the written value equals the
immediately-captured exit code. -/
theorem parameter_step_exit_status_bug (e : Int) :
    (runGeneratedStep e initShState
        (generateParameterStep "step1_status" true true)).vars "script_status" = e ∧
    (runGeneratedStep e initShState
        (generateParameterStep "step1_status" true true)).marker = some "0" ∧
    (runGeneratedStep e initShState
        (generateParameterStep "step1_status" true true)).exited = none ∧
    (runGeneratedStep e initShState
        (generateParameterStep "step1_status" true true)).failedAppended = false := by
  refine ⟨?_, ?_, ?_, ?_⟩ <;>
    simp [runGeneratedStep, generateParameterStep, runPCmds, stepPCmd, initShState] <;>
    rfl

/-- The concrete failing input of C3: a required parameter-workflow bash
step whose script exits 2 gets `"0"` written into its `exit_status.log`
although the captured `script_status` is 2. -/
theorem parameter_step_exit_status_bug_at_2 :
    (runGeneratedStep 2 initShState
        (generateParameterStep "step1_status" true true)).vars "script_status" = 2 ∧
    (runGeneratedStep 2 initShState
        (generateParameterStep "step1_status" true true)).marker = some "0" := by
  exact ⟨(parameter_step_exit_status_bug 2).1, (parameter_step_exit_status_bug 2).2.1⟩

/-! ## The status reconciler and submission orchestrator (`job_tracker.py`)

This embeds `JobTracker._get_running_jobs` (job_tracker.py 251-529) and
`JobTracker.submit_next_job` (1135-1317) for deployments where the
parameter matrix is *disabled* and the status table has no
`param_combination_id` column (a supported configuration: line 268 then
yields `param_id = 'NA'` and line 280 sets `param_id_match = True`, so the
parameter-specific branches at lines 283-294, 311, 322 and the patch block
at 409-527 are never executed, `is_enabled()` being false).

* The table models the CSV-loaded `job_status` DataFrame: `job_id` cells
  are the strings the CSV holds (`'NA'`, `'dry-run'`, a numeric id) or a
  missing cell (`NaN`); timestamps are `Option Nat` (`none` = `NaT`);
  `workflow_stage` cells are strings (a `NaN` stage is modelled as `""`,
  which is how line 357 reads it).
* The snapshot holds the fixed filesystem / queue / clock state one tick
  sees: the scheduler queue (`get_queue_jobs`), the `squeue`/`sacct`
  status oracle (the scheduler part of `get_job_status`), the per-batch
  root `exit_status.log` (readable, stripped), the per-step observations,
  `_get_current_workflow_stage` evaluated against that filesystem (a pure
  function of batch id and status for a fixed snapshot; its internal
  directory walk is deterministic), the clock, the configured step list,
  the batch store, and the outcome of each successive `sbatch` call. -/

inductive JobId where
  | jid (s : String)
  | dryRun
  | na
  | nan
deriving DecidableEq, Inhabited

structure Row where
  batchId : Nat
  jobId : JobId
  status : Status
  submissionTime : Option Nat
  completionTime : Option Nat
  workflowStage : String
deriving DecidableEq, Inhabited

structure Snapshot where
  queue : List String
  sched : String → Status
  rootMarker : Nat → Option String
  stepObs : Nat → String → StepObs
  stageFn : Nat → Status → String
  now : Nat
  workflowSteps : List String
  numBatches : Nat
  batchFiles : Nat → Option (List String)
  submitResult : Nat → Option String

/-- `['RUNNING', 'PENDING', 'CANCELLED', 'FAILED']` (line 263). -/
def checkStatuses : List Status :=
  [.RUNNING, .PENDING, .CANCELLED, .FAILED]

/-- `['RUNNING', 'PENDING', 'COMPLETED', 'FAILED', 'PARTIALLY_COMPLETE']`
(line 355). -/
def stageStatuses : List Status :=
  [.RUNNING, .PENDING, .COMPLETED, .FAILED, .PARTIALLY_COMPLETE]

/-- `['COMPLETED', 'CANCELLED', 'FAILED', 'TIMEOUT', 'UNKNOWN',
'PARTIALLY_COMPLETE']` (line 365). -/
def terminalStatuses : List Status :=
  [.COMPLETED, .CANCELLED, .FAILED, .TIMEOUT, .UNKNOWN, .PARTIALLY_COMPLETE]

/-- The eight statuses of the `NEVER_SUBMITTED` sweep (lines 392-394). -/
def knownStatuses : List Status :=
  [.PENDING, .RUNNING, .FAILED, .CANCELLED, .COMPLETED, .PARTIALLY_COMPLETE,
   .TIMEOUT, .UNKNOWN]

/-- `str(job['job_id'])` (line 266): `none` models `np.nan`. -/
def jobIdStr : JobId → Option String
  | .jid s => some s
  | .dryRun => some "dry-run"
  | .na => some "NA"
  | .nan => none

/-- `job_id in queue_jobs` (line 302); `np.nan` is in no string set. -/
def queueHit (snap : Snapshot) (j : JobId) : Bool :=
  match jobIdStr j with
  | some s => snap.queue.contains s
  | none => false

/-- `JobScheduler.get_job_status(job_id, output_dir_for_status)` as called
at line 332 (see `get_job_status_gw`): the root marker is consulted first,
then the dry-run sentinel, then the scheduler oracle (`str(np.nan)` is
`'nan'`). -/
def getJobStatusM (snap : Snapshot) (j : JobId) (b : Nat) : Status :=
  match snap.rootMarker b with
  | some content => if content = "0" then .COMPLETED else .FAILED
  | none =>
    if j = .dryRun then .DRY_RUN
    else
      match jobIdStr j with
      | some s => snap.sched s
      | none => snap.sched "nan"

/-- Lines 302-332: the new status computed for a checked row, together
with whether the computation adds the batch to `failed_batches`
(lines 318 and 329).  For a job that has left the queue the root marker
decides (`"0"` → `COMPLETED`, otherwise the partial-completion check,
falling back to `FAILED`); a queued or dry-run job asks
`get_job_status`. -/
def newStatusAndFail (snap : Snapshot) (j : JobId) (b : Nat) : Status × Bool :=
  if j ≠ JobId.dryRun ∧ queueHit snap j = false then
    match snap.rootMarker b with
    | some content =>
      if content = "0" then (.COMPLETED, false)
      else
        let p := checkPartialCompletion snap.workflowSteps (snap.stepObs b)
        if p = .PARTIALLY_COMPLETE then (.PARTIALLY_COMPLETE, false)
        else (.FAILED, true)
    | none =>
      let p := checkPartialCompletion snap.workflowSteps (snap.stepObs b)
      if p = .PARTIALLY_COMPLETE then (.PARTIALLY_COMPLETE, false)
      else (.FAILED, true)
  else (getJobStatusM snap j b, false)

/-- The row-selection mask of lines 273-281 (no parameter column): rows
with the same `job_id` (`NaN` matching `NaN`) and the same `batch_id`. -/
def rowKeyT (r : Row) : JobId × Nat := (r.jobId, r.batchId)

def setStatusT (t : List Row) (k : JobId × Nat) (v : Status) : List Row :=
  t.map (fun r => if rowKeyT r = k then { r with status := v } else r)

def setStageT (t : List Row) (k : JobId × Nat) (v : String) : List Row :=
  t.map (fun r => if rowKeyT r = k then { r with workflowStage := v } else r)

def setComplT (t : List Row) (k : JobId × Nat) (v : Option Nat) : List Row :=
  t.map (fun r => if rowKeyT r = k then { r with completionTime := v } else r)

/-- `self.job_status.loc[mask, 'workflow_stage'].iloc[0]` (line 357),
with a `NaN` stage read as `""`; only evaluated under `any(mask)`. -/
def findStage (t : List Row) (k : JobId × Nat) : String :=
  match t.find? (fun r => decide (rowKeyT r = k)) with
  | some r => r.workflowStage
  | none => ""

structure PassState where
  table : List Row
  failed : Finset Nat
  running : Finset String
  dirty : Bool

/-- One iteration of the `for idx, job in jobs_to_check.iterrows()` loop
(job_tracker.py 265-389).  `j` is the snapshot row from the pre-computed
`jobs_to_check` filter (its `status` is the value at loop entry), and the
effects are applied to every row the mask selects. -/
def processRow (snap : Snapshot) (s : PassState) (j : Row) : PassState :=
  let k := rowKeyT j
  let nf := newStatusAndFail snap j.jobId j.batchId
  let n := nf.1
  let failed1 := if nf.2 then insert j.batchId s.failed else s.failed
  let maskAny := s.table.any (fun r => decide (rowKeyT r = k))
  -- lines 335-353: status update under `if any(mask)`
  let t1 := if maskAny ∧ j.status ≠ n then setStatusT s.table k n else s.table
  let d1 := s.dirty ∨ (maskAny ∧ j.status ≠ n)
  -- lines 354-361: workflow-stage update under `if any(mask)`
  let stagePair : List Row × Bool :=
    if maskAny ∧ n ∈ stageStatuses then
      (if snap.stageFn j.batchId n ≠ findStage t1 k then
        (setStageT t1 k (snap.stageFn j.batchId n), true)
      else (t1, d1))
    else (t1, d1)
  let t2 := stagePair.1
  let d2 := stagePair.2
  -- lines 362-389: running bookkeeping and terminal handling
  if n ∈ [Status.RUNNING, Status.PENDING] then
    { table := t2, failed := failed1,
      running := match jobIdStr j.jobId with
        | some str => insert str s.running
        | none => s.running,
      dirty := d2 }
  else if n ∈ terminalStatuses then
    if n ≠ j.status then
      let t3 := setComplT t2 k (some snap.now)
      match snap.rootMarker j.batchId with
      | some content =>
        if content ≠ "0" then
          if n ≠ Status.PARTIALLY_COMPLETE then
            if n ≠ Status.FAILED then
              { table := setStatusT t3 k Status.FAILED,
                failed := insert j.batchId failed1,
                running := s.running, dirty := true }
            else
              { table := t3, failed := insert j.batchId failed1,
                running := s.running, dirty := true }
          else
            { table := t3, failed := failed1, running := s.running, dirty := true }
        else
          { table := t3, failed := failed1, running := s.running, dirty := true }
      | none =>
        if n ∉ [Status.CANCELLED, Status.PARTIALLY_COMPLETE] then
          if n ≠ Status.FAILED then
            { table := setStatusT t3 k Status.FAILED,
              failed := insert j.batchId failed1,
              running := s.running, dirty := true }
          else
            { table := t3, failed := insert j.batchId failed1,
              running := s.running, dirty := true }
        else
          { table := t3, failed := failed1, running := s.running, dirty := true }
    else
      { table := t2, failed := failed1, running := s.running, dirty := d2 }
  else
    { table := t2, failed := failed1, running := s.running, dirty := d2 }

/-- The `NEVER_SUBMITTED` sweep mask (lines 392-397): status outside the
eight known statuses, `job_id` equal to `'NA'`, `NaN` or `''`, and no
submission time. -/
def nsMask (r : Row) : Prop :=
  r.status ∉ knownStatuses ∧
  (r.jobId = .na ∨ r.jobId = .nan ∨ r.jobId = .jid "") ∧
  r.submissionTime = none

instance (r : Row) : Decidable (nsMask r) := by
  unfold nsMask
  infer_instance

structure PassResult where
  table : List Row
  failed : Finset Nat
  running : Finset String
  saved : Bool
deriving DecidableEq

/-- Embedding of `JobTracker._get_running_jobs` (job_tracker.py 251-407;
the parameter-matrix block 409-527 is skipped since the matrix is
disabled).  `saved` records whether the pass persisted the Store
(`status_changes` at line 403 — persisting also writes
`failed_batches`). -/
def runPass (snap : Snapshot) (t0 : List Row) (f0 : Finset Nat) : PassResult :=
  let checkRows := t0.filter (fun r => decide (r.status ∈ checkStatuses))
  let s := checkRows.foldl (processRow snap) ⟨t0, f0, ∅, false⟩
  let anyNS := s.table.any (fun r => decide (nsMask r))
  let t' := if anyNS then
      s.table.map (fun r => if nsMask r then { r with status := .NEVER_SUBMITTED } else r)
    else s.table
  ⟨t', s.failed, s.running, s.dirty ∨ anyNS⟩

structure TrackerState where
  table : List Row
  failed : Finset Nat
  sbatchCalls : Nat
deriving DecidableEq

/-- Embedding of `JobTracker._get_next_batch_id` (job_tracker.py 885-910)
with no batch range configured: with resubmission enabled, the first batch
id in `1..num_batches` with a `FAILED`/`CANCELLED` row; otherwise (or when
none exists) the first batch id with a `NEVER_SUBMITTED`/`UNKNOWN` row;
`none` models the `-1` result. -/
def nextBatchId (snap : Snapshot) (resub : Bool) (t : List Row) : Option Nat :=
  let ids := List.range' 1 snap.numBatches
  let fromFailed :=
    if resub then
      ids.find? (fun b => t.any (fun r =>
        decide (r.batchId = b ∧ (r.status = .FAILED ∨ r.status = .CANCELLED))))
    else none
  match fromFailed with
  | some b => some b
  | none =>
    ids.find? (fun b => t.any (fun r =>
      decide (r.batchId = b ∧ (r.status = .NEVER_SUBMITTED ∨ r.status = .UNKNOWN))))

/-- Embedding of `JobTracker.mark_jobs_for_resubmission`
(job_tracker.py 926-938): when resubmission is enabled, every
`FAILED`/`CANCELLED` row of the batch gets `job_id := 'NA'`, both
timestamps cleared, and status `NEVER_SUBMITTED`. -/
def markJobsForResubmission (resub : Bool) (t : List Row) (b : Nat) : List Row :=
  if ¬ resub then t
  else t.map (fun r =>
    if r.batchId = b ∧ (r.status = .FAILED ∨ r.status = .CANCELLED) then
      { r with
        jobId := .na, submissionTime := none, completionTime := none,
        status := .NEVER_SUBMITTED }
    else r)

/-- Embedding of `JobTracker.submit_next_job` (job_tracker.py 1135-1317)
for the parameter-matrix-disabled configuration: reconcile, enforce the
concurrency cap against the fresh running set, select the next batch,
reset resubmittable rows, resolve the batch's files (`none` models the
`ValueError` path where even `create_batches()` cannot produce the batch;
`some []` the empty batch, which is marked failed), generate the script
and submit (`snap.submitResult` gives the outcome of the `k`-th real
`sbatch` call: `none` covers a missing script, an `sbatch` failure and an
unparsable job id), then append the new `PENDING`/`DRY-RUN` row and drop
the batch from the failed set.  The boolean is the Python return value. -/
def submitNextJob (snap : Snapshot) (cap : Nat) (resub dryRun : Bool)
    (s : TrackerState) : TrackerState × Bool :=
  let p := runPass snap s.table s.failed
  let s1 : TrackerState := ⟨p.table, p.failed, s.sbatchCalls⟩
  if cap ≤ p.running.card then (s1, false)
  else
    match nextBatchId snap resub s1.table with
    | none => (s1, false)
    | some b =>
      let t2 := markJobsForResubmission resub s1.table b
      match snap.batchFiles b with
      | none => (⟨t2, s1.failed, s1.sbatchCalls⟩, false)
      | some files =>
        if files = [] then (⟨t2, insert b s1.failed, s1.sbatchCalls⟩, false)
        else
          let jidRes := if dryRun then some "dry-run" else snap.submitResult s1.sbatchCalls
          let calls' := if dryRun then s1.sbatchCalls else s1.sbatchCalls + 1
          match jidRes with
          | none => (⟨t2, s1.failed, calls'⟩, false)
          | some jidStr =>
            let newRow : Row :=
              { batchId := b,
                jobId := if jidStr = "dry-run" then .dryRun else .jid jidStr,
                status := if jidStr = "dry-run" then .DRY_RUN else .PENDING,
                submissionTime := some snap.now,
                completionTime := none,
                workflowStage := "pending" }
            (⟨t2 ++ [newRow], s1.failed.erase b, calls'⟩, true)

/-- The Scenario-D snapshot: five batches, an empty filesystem, a queue
containing the two ids `sbatch` will hand out, both reported `PENDING`. -/
def scenarioSnap : Snapshot :=
  { queue := ["101", "102"],
    sched := fun s => if s = "101" ∨ s = "102" then .PENDING else .UNKNOWN,
    rootMarker := fun _ => none,
    stepObs := fun _ _ => .dirAbsent,
    stageFn := fun _ _ => "pending",
    now := 0,
    workflowSteps := ["step1"],
    numBatches := 5,
    batchFiles := fun _ => some ["f.cif"],
    submitResult := fun c => if c = 0 then some "101"
      else if c = 1 then some "102" else none }

/-- Five never-submitted batches (Scenario D's starting table). -/
def scenarioState : TrackerState :=
  ⟨(List.range' 1 5).map (fun b =>
      { batchId := b, jobId := .na, status := .NEVER_SUBMITTED,
        submissionTime := none, completionTime := none,
        workflowStage := "never_submitted" }),
    ∅, 0⟩

/-- **C5**. `submit_next_job` returns false without submitting anything —
the post-reconciliation state is returned unchanged, no `sbatch` call is
made and no row is appended — whenever the fresh reconciliation pass
reports at least `cap` active (`PENDING`/`RUNNING`) jobs
(job_tracker.py 1148-1149); and in Scenario D (cap 2, five
never-submitted batches, no failures) two consecutive calls each submit
and a third call in the same tick returns false. -/
theorem submit_next_respects_cap :
    (∀ (snap : Snapshot) (cap : Nat) (resub dryRun : Bool) (s : TrackerState),
      cap ≤ (runPass snap s.table s.failed).running.card →
        submitNextJob snap cap resub dryRun s =
          (⟨(runPass snap s.table s.failed).table,
            (runPass snap s.table s.failed).failed, s.sbatchCalls⟩, false)) ∧
    ((submitNextJob scenarioSnap 2 false false scenarioState).2 = true ∧
      (submitNextJob scenarioSnap 2 false false
        (submitNextJob scenarioSnap 2 false false scenarioState).1).2 = true ∧
      (submitNextJob scenarioSnap 2 false false
        (submitNextJob scenarioSnap 2 false false
          (submitNextJob scenarioSnap 2 false false scenarioState).1).1).2 = false) := by
  constructor
  · intro snap cap resub dryRun s hcap
    unfold submitNextJob
    rw [if_pos hcap]
  · refine ⟨?_, ?_, ?_⟩ <;> decide

/-- Witness for `submit_next_respects_cap`: after Scenario D's two
submissions, the active count reaches the cap and the third call returns
the reconciled state unchanged with `false`. -/
theorem submit_next_respects_cap_witness :
    2 ≤ (runPass scenarioSnap
        ((submitNextJob scenarioSnap 2 false false
          (submitNextJob scenarioSnap 2 false false scenarioState).1).1).table
        ((submitNextJob scenarioSnap 2 false false
          (submitNextJob scenarioSnap 2 false false scenarioState).1).1).failed).running.card ∧
    submitNextJob scenarioSnap 2 false false
        ((submitNextJob scenarioSnap 2 false false
          (submitNextJob scenarioSnap 2 false false scenarioState).1).1) =
      (⟨(runPass scenarioSnap
          ((submitNextJob scenarioSnap 2 false false
            (submitNextJob scenarioSnap 2 false false scenarioState).1).1).table
          ((submitNextJob scenarioSnap 2 false false
            (submitNextJob scenarioSnap 2 false false scenarioState).1).1).failed).table,
        (runPass scenarioSnap
          ((submitNextJob scenarioSnap 2 false false
            (submitNextJob scenarioSnap 2 false false scenarioState).1).1).table
          ((submitNextJob scenarioSnap 2 false false
            (submitNextJob scenarioSnap 2 false false scenarioState).1).1).failed).failed,
        ((submitNextJob scenarioSnap 2 false false
          (submitNextJob scenarioSnap 2 false false scenarioState).1).1).sbatchCalls⟩,
        false) := by
  refine ⟨by decide, ?_⟩
  exact submit_next_respects_cap.1 scenarioSnap 2 false false
    ((submitNextJob scenarioSnap 2 false false
      (submitNextJob scenarioSnap 2 false false scenarioState).1).1) (by decide)

theorem markJobs_length (t : List Row) (b : Nat) :
    (markJobsForResubmission true t b).length = t.length := by
  simp [markJobsForResubmission]

theorem markJobs_getD (t : List Row) (b : Nat) (i : Nat) (hi : i < t.length) :
    (markJobsForResubmission true t b).getD i default =
      (if (t.getD i default).batchId = b ∧
          ((t.getD i default).status = .FAILED ∨ (t.getD i default).status = .CANCELLED) then
        { t.getD i default with
          jobId := .na, submissionTime := none, completionTime := none,
          status := .NEVER_SUBMITTED }
      else t.getD i default) := by
  have hmap : markJobsForResubmission true t b = t.map (fun r =>
      if r.batchId = b ∧ (r.status = .FAILED ∨ r.status = .CANCELLED) then
        { r with
          jobId := .na, submissionTime := none, completionTime := none,
          status := .NEVER_SUBMITTED }
      else r) := by
    unfold markJobsForResubmission
    rw [if_neg (by simp)]
  have hi' : i < (t.map (fun r =>
      if r.batchId = b ∧ (r.status = .FAILED ∨ r.status = .CANCELLED) then
        { r with
          jobId := .na, submissionTime := none, completionTime := none,
          status := .NEVER_SUBMITTED }
      else r)).length := by
    rw [List.length_map]
    exact hi
  rw [hmap, List.getD_eq_getElem _ _ hi', List.getD_eq_getElem _ _ hi,
    List.getElem_map]

theorem getD_append_left (l l' : List Row) (i : Nat) (hi : i < l.length) :
    (l ++ l').getD i default = l.getD i default := by
  have hi' : i < (l ++ l').length := by
    rw [List.length_append]
    omega
  rw [List.getD_eq_getElem _ _ hi', List.getD_eq_getElem _ _ hi]
  exact List.getElem_append_left hi

/-- **C6**. When `submit_next_job` is called with resubmission enabled and
it submits (returns true) a batch `b` chosen by the selection scan, every
post-reconciliation row of batch `b` whose status is `FAILED` or
`CANCELLED` is reset in the resulting table at the same index to
`NEVER_SUBMITTED` with `job_id = 'NA'` and both timestamps cleared
(`mark_jobs_for_resubmission`, job_tracker.py 926-938, invoked at 1158
before submission), and `b` is removed from the failed-batch set
(job_tracker.py 1310-1313). -/
theorem resubmission_reset (snap : Snapshot) (cap : Nat) (dryRun : Bool)
    (s : TrackerState) (b i : Nat)
    (hb : nextBatchId snap true (runPass snap s.table s.failed).table = some b)
    (hret : (submitNextJob snap cap true dryRun s).2 = true)
    (hi : i < (runPass snap s.table s.failed).table.length)
    (hbat : ((runPass snap s.table s.failed).table.getD i default).batchId = b)
    (hfc : ((runPass snap s.table s.failed).table.getD i default).status = .FAILED ∨
      ((runPass snap s.table s.failed).table.getD i default).status = .CANCELLED) :
    (submitNextJob snap cap true dryRun s).1.table.getD i default =
      { (runPass snap s.table s.failed).table.getD i default with
        jobId := .na, submissionTime := none, completionTime := none,
        status := .NEVER_SUBMITTED } ∧
    b ∉ (submitNextJob snap cap true dryRun s).1.failed := by
  by_cases hcap : cap ≤ (runPass snap s.table s.failed).running.card
  · exfalso
    unfold submitNextJob at hret
    rw [if_pos hcap] at hret
    simp at hret
  · unfold submitNextJob at hret ⊢
    rw [if_neg hcap] at hret ⊢
    rw [hb] at hret ⊢
    dsimp only at hret ⊢
    cases hf : snap.batchFiles b with
    | none =>
      rw [hf] at hret
      simp at hret
    | some files =>
      rw [hf] at hret
      dsimp only at hret ⊢
      by_cases hfe : files = []
      · rw [if_pos hfe] at hret
        simp at hret
      · rw [if_neg hfe] at hret ⊢
        cases hj : (if dryRun then some "dry-run" else snap.submitResult s.sbatchCalls) with
        | none =>
          rw [hj] at hret
          simp at hret
        | some jidStr =>
          rw [hj] at hret
          dsimp only at hret ⊢
          constructor
          · rw [getD_append_left _ _ _ (by rw [markJobs_length]; exact hi)]
            rw [markJobs_getD _ _ _ hi, if_pos ⟨hbat, hfc⟩]
          · exact Finset.not_mem_erase b _

/-- A one-row scenario for the resubmission witness: batch 1 has a
`FAILED` job absent from the queue, its batch files exist, and the next
`sbatch` call yields job id `7`. -/
def resubSnap : Snapshot :=
  { queue := [],
    sched := fun _ => .UNKNOWN,
    rootMarker := fun _ => none,
    stepObs := fun _ _ => .dirAbsent,
    stageFn := fun _ _ => "failed",
    now := 5,
    workflowSteps := ["step1"],
    numBatches := 3,
    batchFiles := fun _ => some ["a.cif"],
    submitResult := fun _ => some "7" }

/-- One `FAILED` row for batch 1, with batch 1 in the failed set. -/
def resubState : TrackerState :=
  ⟨[{ batchId := 1, jobId := .jid "9", status := .FAILED,
      submissionTime := some 0, completionTime := some 1,
      workflowStage := "failed" }], {1}, 0⟩

/-- Witness for `resubmission_reset`: in the concrete scenario batch 1 is
selected, the call submits, and the failed row is reset. -/
theorem resubmission_reset_witness :
    (nextBatchId resubSnap true
        (runPass resubSnap resubState.table resubState.failed).table = some 1 ∧
      (submitNextJob resubSnap 5 true false resubState).2 = true ∧
      0 < (runPass resubSnap resubState.table resubState.failed).table.length ∧
      ((runPass resubSnap resubState.table resubState.failed).table.getD 0
        default).batchId = 1 ∧
      (((runPass resubSnap resubState.table resubState.failed).table.getD 0
          default).status = .FAILED ∨
        ((runPass resubSnap resubState.table resubState.failed).table.getD 0
          default).status = .CANCELLED)) ∧
    ((submitNextJob resubSnap 5 true false resubState).1.table.getD 0 default =
      { (runPass resubSnap resubState.table resubState.failed).table.getD 0
          default with
        jobId := .na, submissionTime := none, completionTime := none,
        status := .NEVER_SUBMITTED } ∧
    1 ∉ (submitNextJob resubSnap 5 true false resubState).1.failed) :=
  ⟨⟨by decide, by decide, by decide, by decide, by decide⟩,
    resubmission_reset resubSnap 5 false resubState 1 0 (by decide) (by decide)
      (by decide) (by decide) (by decide)⟩

/-! ### Idempotence of the reconciliation pass (C2)

The invariant `RowOK` classifies, after a pass, every row whose status the
next pass will re-check: either its status already equals the status the
snapshot re-derives for its `(job_id, batch_id)` key, or the key is in the
marker-absent terminal-overwrite case (lines 376-385), where the pass
re-derives a terminal non-`FAILED` status and immediately overwrites every
masked row back to `FAILED` — restoring, not changing, the stored
values. -/

def nFor (snap : Snapshot) (jid : JobId) (b : Nat) : Status :=
  (newStatusAndFail snap jid b).1

def fFor (snap : Snapshot) (jid : JobId) (b : Nat) : Bool :=
  (newStatusAndFail snap jid b).2

/-- The terminal-overwrite situation of lines 376-385: no root marker and
a re-derived terminal status outside `CANCELLED`/`PARTIALLY_COMPLETE`/
`FAILED`. -/
def OverCond (snap : Snapshot) (jid : JobId) (b : Nat) : Prop :=
  snap.rootMarker b = none ∧
  nFor snap jid b ∈ terminalStatuses ∧
  nFor snap jid b ∉ [Status.CANCELLED, Status.PARTIALLY_COMPLETE] ∧
  nFor snap jid b ≠ Status.FAILED

/-- Every row of the key's mask is `FAILED` with completion time `now`. -/
def OverAll (snap : Snapshot) (t : List Row) (k : JobId × Nat) : Prop :=
  ∀ r' ∈ t, rowKeyT r' = k →
    r'.status = Status.FAILED ∧ r'.completionTime = some snap.now

/-- What a checked row looks like after a completed pass. -/
def RowOK (snap : Snapshot) (t : List Row) (f : Finset Nat) (r : Row) : Prop :=
  (fFor snap r.jobId r.batchId = true → r.batchId ∈ f) ∧
  (nFor snap r.jobId r.batchId ∈ stageStatuses →
    findStage t (rowKeyT r) = snap.stageFn r.batchId (nFor snap r.jobId r.batchId)) ∧
  (r.status = nFor snap r.jobId r.batchId ∨
    (OverCond snap r.jobId r.batchId ∧ r.batchId ∈ f ∧
      OverAll snap t (rowKeyT r)))

def TableOK (snap : Snapshot) (t : List Row) (f : Finset Nat) : Prop :=
  ∀ r ∈ t, r.status ∈ checkStatuses → RowOK snap t f r

/-- After the sweep every never-submitted-masked row already reads
`NEVER_SUBMITTED`. -/
def NSOK (t : List Row) : Prop :=
  ∀ r ∈ t, nsMask r → r.status = Status.NEVER_SUBMITTED

/-- Mid-fold invariant while establishing `TableOK`: a checked row is
either already classified, or it is still pending — the remaining
iteration list holds a snapshot row with its key and status. -/
def MidPending (snap : Snapshot) (s : PassState) (S : List Row) : Prop :=
  ∀ r ∈ s.table, r.status ∈ checkStatuses →
    (∃ j' ∈ S, rowKeyT j' = rowKeyT r ∧ j'.status = r.status) ∨
    RowOK snap s.table s.failed r

theorem rowKeyT_status (r : Row) (v : Status) :
    rowKeyT { r with status := v } = rowKeyT r := rfl

theorem rowKeyT_stage (r : Row) (v : String) :
    rowKeyT { r with workflowStage := v } = rowKeyT r := rfl

theorem rowKeyT_compl (r : Row) (v : Option Nat) :
    rowKeyT { r with completionTime := v } = rowKeyT r := rfl

theorem rowKeyT_batch {r : Row} {k : JobId × Nat} (h : rowKeyT r = k) :
    r.batchId = k.2 := by
  rw [← h]
  rfl

theorem rowKeyT_jid {r : Row} {k : JobId × Nat} (h : rowKeyT r = k) :
    r.jobId = k.1 := by
  rw [← h]
  rfl

/-- `findStage` only looks at keys and stages: a pointwise map preserving
both (at the looked-up key) preserves it. -/
theorem findStage_map (t : List Row) (g : Row → Row) (k : JobId × Nat)
    (hkey : ∀ r, rowKeyT (g r) = rowKeyT r)
    (hstage : ∀ r, rowKeyT r = k → (g r).workflowStage = r.workflowStage) :
    findStage (t.map g) k = findStage t k := by
  induction t with
  | nil => rfl
  | cons a t ih =>
    unfold findStage at ih ⊢
    rw [List.map_cons, List.find?_cons, List.find?_cons, hkey a]
    cases hpa : decide (rowKeyT a = k) with
    | false => exact ih
    | true =>
      dsimp only
      rw [hstage a (of_decide_eq_true hpa)]

/-- Setting the stage of a present key makes `findStage` read it back. -/
theorem findStage_setStage (t : List Row) (k : JobId × Nat) (v : String)
    (hex : ∃ r ∈ t, rowKeyT r = k) :
    findStage (setStageT t k v) k = v := by
  induction t with
  | nil =>
    obtain ⟨r, hr, _⟩ := hex
    exact absurd hr (List.not_mem_nil r)
  | cons a t ih =>
    unfold setStageT findStage
    rw [List.map_cons, List.find?_cons]
    by_cases ha : rowKeyT a = k
    · rw [if_pos ha]
      have : decide (rowKeyT { a with workflowStage := v } = k) = true := by
        rw [rowKeyT_stage]
        exact decide_eq_true ha
      rw [this]
    · rw [if_neg ha]
      have : decide (rowKeyT a = k) = false := by
        exact decide_eq_false ha
      rw [this]
      obtain ⟨r, hr, hrk⟩ := hex
      rw [List.mem_cons] at hr
      rcases hr with rfl | hr
      · exact absurd hrk ha
      · exact ih ⟨r, hr, hrk⟩

theorem setStatusT_eq_map (t : List Row) (k : JobId × Nat) (v : Status) :
    setStatusT t k v =
      t.map (fun r => if rowKeyT r = k then { r with status := v } else r) := rfl

theorem setStageT_eq_map (t : List Row) (k : JobId × Nat) (v : String) :
    setStageT t k v =
      t.map (fun r => if rowKeyT r = k then { r with workflowStage := v } else r) := rfl

theorem setComplT_eq_map (t : List Row) (k : JobId × Nat) (v : Option Nat) :
    setComplT t k v =
      t.map (fun r => if rowKeyT r = k then { r with completionTime := v } else r) := rfl

/-- A key-masked row update: keys are preserved and rows outside the mask
are untouched (every write of lines 335-385 has this shape). -/
def KeyUpd (k : JobId × Nat) (g : Row → Row) : Prop :=
  (∀ r, rowKeyT (g r) = rowKeyT r) ∧ (∀ r, rowKeyT r ≠ k → g r = r)

theorem keyUpd_statusUpd (k : JobId × Nat) (v : Status) :
    KeyUpd k (fun r => if rowKeyT r = k then { r with status := v } else r) := by
  constructor
  · intro r
    dsimp only
    by_cases h : rowKeyT r = k
    · rw [if_pos h]
      rfl
    · rw [if_neg h]
  · intro r h
    dsimp only
    rw [if_neg h]

theorem keyUpd_stageUpd (k : JobId × Nat) (v : String) :
    KeyUpd k (fun r => if rowKeyT r = k then { r with workflowStage := v } else r) := by
  constructor
  · intro r
    dsimp only
    by_cases h : rowKeyT r = k
    · rw [if_pos h]
      rfl
    · rw [if_neg h]
  · intro r h
    dsimp only
    rw [if_neg h]

theorem keyUpd_complUpd (k : JobId × Nat) (v : Option Nat) :
    KeyUpd k (fun r => if rowKeyT r = k then { r with completionTime := v } else r) := by
  constructor
  · intro r
    dsimp only
    by_cases h : rowKeyT r = k
    · rw [if_pos h]
      rfl
    · rw [if_neg h]
  · intro r h
    dsimp only
    rw [if_neg h]

theorem keyUpd_comp {k : JobId × Nat} {g g' : Row → Row}
    (hg : KeyUpd k g) (hg' : KeyUpd k g') : KeyUpd k (fun r => g' (g r)) := by
  constructor
  · intro r
    dsimp only
    rw [hg'.1, hg.1]
  · intro r h
    dsimp only
    rw [hg.2 r h, hg'.2 r h]

theorem keys_map {t : List Row} {g : Row → Row}
    (hkey : ∀ r, rowKeyT (g r) = rowKeyT r) :
    (t.map g).map rowKeyT = t.map rowKeyT := by
  rw [List.map_map]
  exact List.map_congr_left (fun r _ => hkey r)

theorem mem_map_unmasked {t : List Row} {g : Row → Row} {k : JobId × Nat}
    (hg : KeyUpd k g) {r : Row} (hr : r ∈ t) (hk : rowKeyT r ≠ k) :
    r ∈ t.map g := by
  have : g r = r := hg.2 r hk
  exact this ▸ List.mem_map_of_mem g hr

theorem exists_key_map {t : List Row} {g : Row → Row} {k' : JobId × Nat}
    (hkey : ∀ r, rowKeyT (g r) = rowKeyT r)
    (hex : ∃ r ∈ t, rowKeyT r = k') : ∃ r ∈ t.map g, rowKeyT r = k' := by
  obtain ⟨r, hr, hk⟩ := hex
  exact ⟨g r, List.mem_map_of_mem g hr, (hkey r).trans hk⟩

theorem overAll_map_frame {snap : Snapshot} {t : List Row} {g : Row → Row}
    {k k' : JobId × Nat} (hg : KeyUpd k g) (hkk : k' ≠ k)
    (h : OverAll snap t k') : OverAll snap (t.map g) k' := by
  intro r' hr' hk'
  rw [List.mem_map] at hr'
  obtain ⟨r, hr, rfl⟩ := hr'
  rw [hg.1 r] at hk'
  rw [hg.2 r (hk' ▸ hkk)]
  exact h r hr hk'

theorem overAll_map_pres {snap : Snapshot} {t : List Row} {g : Row → Row}
    {k : JobId × Nat}
    (hkey : ∀ r, rowKeyT (g r) = rowKeyT r)
    (hsc : ∀ r, (g r).status = r.status ∧ (g r).completionTime = r.completionTime)
    (h : OverAll snap t k) : OverAll snap (t.map g) k := by
  intro r' hr' hk'
  rw [List.mem_map] at hr'
  obtain ⟨r, hr, rfl⟩ := hr'
  rw [hkey r] at hk'
  rw [(hsc r).1, (hsc r).2]
  exact h r hr hk' 

theorem rowOK_frame {snap : Snapshot} {t : List Row} {F F' : Finset Nat}
    {g : Row → Row} {k : JobId × Nat} {r : Row}
    (hg : KeyUpd k g) (hk : rowKeyT r ≠ k) (hF : F ⊆ F')
    (h : RowOK snap t F r) : RowOK snap (t.map g) F' r := by
  obtain ⟨h1, h2, h3⟩ := h
  refine ⟨fun hf => hF (h1 hf), ?_, ?_⟩
  · intro hn
    have hfs : findStage (t.map g) (rowKeyT r) = findStage t (rowKeyT r) := by
      apply findStage_map t g (rowKeyT r) hg.1
      intro r0 hr0
      rw [hg.2 r0 (by rw [hr0]; exact hk)]
    rw [hfs]
    exact h2 hn
  · rcases h3 with h3 | ⟨hoc, hbf, hall⟩
    · exact Or.inl h3
    · exact Or.inr ⟨hoc, hF hbf, overAll_map_frame hg hk hall⟩

/-- The generic shape of one loop iteration's effect on the mid-fold
invariant: rows outside the iteration's mask are framed, masked rows are
handled by the per-branch argument `hres`. -/
theorem mid_step_general {snap : Snapshot} {s : PassState} {j : Row} {S' : List Row}
    {g : Row → Row} {F' : Finset Nat} {run : Finset String} {d : Bool}
    (hg : KeyUpd (rowKeyT j) g)
    (hF : s.failed ⊆ F')
    (hInv : MidPending snap s (j :: S'))
    (hres : ∀ r ∈ s.table, rowKeyT r = rowKeyT j → (g r).status ∈ checkStatuses →
      (∃ j' ∈ S', rowKeyT j' = rowKeyT (g r) ∧ j'.status = (g r).status) ∨
      RowOK snap (s.table.map g) F' (g r)) :
    MidPending snap ⟨s.table.map g, F', run, d⟩ S' := by
  intro r' hr' hc
  dsimp only at hr' ⊢
  rcases List.mem_map.mp hr' with ⟨r, hr, rfl⟩
  by_cases hk : rowKeyT r = rowKeyT j
  · exact hres r hr hk hc
  · rw [hg.2 r hk] at hc ⊢
    rcases hInv r hr hc with ⟨j', hj', hjk, hjs⟩ | hOK
    · rw [List.mem_cons] at hj'
      rcases hj' with rfl | hj''
      · exact absurd hjk.symm hk
      · exact Or.inl ⟨j', hj'', hjk, hjs⟩
    · exact Or.inr (rowOK_frame hg hk hF hOK)

/-- A masked row whose status equals the re-derived status is classified
(first disjunct of `RowOK`). -/
theorem resolved_n_row {snap : Snapshot} {j : Row} {T : List Row} {F' : Finset Nat}
    {r' : Row} (hk : rowKeyT r' = rowKeyT j)
    (hst : r'.status = nFor snap j.jobId j.batchId)
    (hstage : nFor snap j.jobId j.batchId ∈ stageStatuses →
      findStage T (rowKeyT j) = snap.stageFn j.batchId (nFor snap j.jobId j.batchId))
    (hfail : fFor snap j.jobId j.batchId = true → j.batchId ∈ F') :
    RowOK snap T F' r' := by
  have hj1 : r'.jobId = j.jobId := congrArg Prod.fst hk
  have hj2 : r'.batchId = j.batchId := congrArg Prod.snd hk
  refine ⟨?_, ?_, Or.inl ?_⟩
  · rw [hj1, hj2]
    exact hfail
  · rw [hj1, hj2, hk]
    exact hstage
  · rw [hj1, hj2]
    exact hst

/-- A masked row in the terminal-overwrite class is classified (second
disjunct of `RowOK`). -/
theorem resolved_over {snap : Snapshot} {j : Row} {T : List Row} {F' : Finset Nat}
    {r' : Row} (hk : rowKeyT r' = rowKeyT j)
    (hoc : OverCond snap j.jobId j.batchId)
    (hall : OverAll snap T (rowKeyT j))
    (hstage : nFor snap j.jobId j.batchId ∈ stageStatuses →
      findStage T (rowKeyT j) = snap.stageFn j.batchId (nFor snap j.jobId j.batchId))
    (hbf : j.batchId ∈ F') :
    RowOK snap T F' r' := by
  have hj1 : r'.jobId = j.jobId := congrArg Prod.fst hk
  have hj2 : r'.batchId = j.batchId := congrArg Prod.snd hk
  refine ⟨?_, ?_, Or.inr ?_⟩
  · intro _
    rw [hj2]
    exact hbf
  · rw [hj1, hj2, hk]
    exact hstage
  · rw [hj1, hj2, hk]
    exact ⟨hoc, hbf, hall⟩

theorem masked_map_pred {t : List Row} {g : Row → Row} {k : JobId × Nat}
    {P : Row → Prop}
    (hkey : ∀ r, rowKeyT (g r) = rowKeyT r)
    (hP : ∀ r, P r → P (g r))
    (h : ∀ r' ∈ t, rowKeyT r' = k → P r') :
    ∀ r' ∈ t.map g, rowKeyT r' = k → P r' := by
  intro r' hr' hk'
  rcases List.mem_map.mp hr' with ⟨r, hr, rfl⟩
  rw [hkey r] at hk'
  exact hP r (h r hr hk')

theorem status_masked_set (t : List Row) (k : JobId × Nat) (v : Status) :
    ∀ r' ∈ setStatusT t k v, rowKeyT r' = k → r'.status = v := by
  intro r' hr' hk'
  rw [setStatusT_eq_map] at hr'
  rcases List.mem_map.mp hr' with ⟨r, hr, rfl⟩
  by_cases h : rowKeyT r = k
  · rw [if_pos h]
  · rw [if_neg h] at hk'
    exact absurd hk' h

theorem compl_masked_set (t : List Row) (k : JobId × Nat) (c : Option Nat) :
    ∀ r' ∈ setComplT t k c, rowKeyT r' = k → r'.completionTime = c := by
  intro r' hr' hk'
  rw [setComplT_eq_map] at hr'
  rcases List.mem_map.mp hr' with ⟨r, hr, rfl⟩
  by_cases h : rowKeyT r = k
  · rw [if_pos h]
  · rw [if_neg h] at hk'
    exact absurd hk' h

theorem statusUpd_pres (k : JobId × Nat) (v : Status) (r : Row) :
    ((if rowKeyT r = k then { r with status := v } else r) : Row).completionTime
        = r.completionTime ∧
    ((if rowKeyT r = k then { r with status := v } else r) : Row).workflowStage
        = r.workflowStage := by
  by_cases h : rowKeyT r = k
  · rw [if_pos h]
    exact ⟨rfl, rfl⟩
  · rw [if_neg h]
    exact ⟨rfl, rfl⟩

theorem stageUpd_pres (k : JobId × Nat) (v : String) (r : Row) :
    ((if rowKeyT r = k then { r with workflowStage := v } else r) : Row).status
        = r.status ∧
    ((if rowKeyT r = k then { r with workflowStage := v } else r) : Row).completionTime
        = r.completionTime := by
  by_cases h : rowKeyT r = k
  · rw [if_pos h]
    exact ⟨rfl, rfl⟩
  · rw [if_neg h]
    exact ⟨rfl, rfl⟩

theorem complUpd_pres (k : JobId × Nat) (c : Option Nat) (r : Row) :
    ((if rowKeyT r = k then { r with completionTime := c } else r) : Row).status
        = r.status ∧
    ((if rowKeyT r = k then { r with completionTime := c } else r) : Row).workflowStage
        = r.workflowStage := by
  by_cases h : rowKeyT r = k
  · rw [if_pos h]
    exact ⟨rfl, rfl⟩
  · rw [if_neg h]
    exact ⟨rfl, rfl⟩

/-- With a nonzero root marker the re-derived status can only be
`PARTIALLY_COMPLETE` or `FAILED` (both `get_job_status` and the
left-the-queue path consult the marker first). -/
theorem nFor_marker_nonzero (snap : Snapshot) (jid : JobId) (b : Nat) (c : String)
    (hm : snap.rootMarker b = some c) (hc : ¬ c = "0") :
    nFor snap jid b = Status.PARTIALLY_COMPLETE ∨ nFor snap jid b = Status.FAILED := by
  unfold nFor newStatusAndFail
  by_cases hq : jid ≠ JobId.dryRun ∧ queueHit snap jid = false
  · rw [if_pos hq, hm]
    dsimp only
    rw [if_neg hc]
    by_cases hp : checkPartialCompletion snap.workflowSteps (snap.stepObs b)
        = Status.PARTIALLY_COMPLETE
    · rw [if_pos hp]
      exact Or.inl rfl
    · rw [if_neg hp]
      exact Or.inr rfl
  · rw [if_neg hq]
    unfold getJobStatusM
    rw [hm]
    dsimp only
    rw [if_neg hc]
    exact Or.inr rfl

theorem nFor_def (snap : Snapshot) (jid : JobId) (b : Nat) :
    (newStatusAndFail snap jid b).1 = nFor snap jid b := rfl

theorem fFor_def (snap : Snapshot) (jid : JobId) (b : Nat) :
    (newStatusAndFail snap jid b).2 = fFor snap jid b := rfl

def statusUpd (k : JobId × Nat) (v : Status) (r : Row) : Row :=
  if rowKeyT r = k then { r with status := v } else r

def stageUpd (k : JobId × Nat) (v : String) (r : Row) : Row :=
  if rowKeyT r = k then { r with workflowStage := v } else r

def complUpd (k : JobId × Nat) (c : Option Nat) (r : Row) : Row :=
  if rowKeyT r = k then { r with completionTime := c } else r

theorem setStatusT_map (t : List Row) (k : JobId × Nat) (v : Status) :
    setStatusT t k v = t.map (statusUpd k v) := rfl

theorem setStageT_map (t : List Row) (k : JobId × Nat) (v : String) :
    setStageT t k v = t.map (stageUpd k v) := rfl

theorem setComplT_map (t : List Row) (k : JobId × Nat) (c : Option Nat) :
    setComplT t k c = t.map (complUpd k c) := rfl

theorem keyUpd_statusUpd2 (k : JobId × Nat) (v : Status) : KeyUpd k (statusUpd k v) :=
  keyUpd_statusUpd k v

theorem keyUpd_stageUpd2 (k : JobId × Nat) (v : String) : KeyUpd k (stageUpd k v) :=
  keyUpd_stageUpd k v

theorem keyUpd_complUpd2 (k : JobId × Nat) (c : Option Nat) : KeyUpd k (complUpd k c) :=
  keyUpd_complUpd k c

theorem keyUpd_id (k : JobId × Nat) : KeyUpd k (fun r => r) :=
  ⟨fun _ => rfl, fun _ _ => rfl⟩

/-- `findStage` is unchanged by status writes (any key). -/
theorem findStage_setStatus (t : List Row) (k : JobId × Nat) (v : Status)
    (k' : JobId × Nat) : findStage (setStatusT t k v) k' = findStage t k' := by
  rw [setStatusT_map]
  exact findStage_map t (statusUpd k v) k' (keyUpd_statusUpd2 k v).1
    (fun r _ => ((statusUpd_pres k v r).2 : (statusUpd k v r).workflowStage = r.workflowStage))

/-- `findStage` is unchanged by completion-time writes (any key). -/
theorem findStage_setCompl (t : List Row) (k : JobId × Nat) (c : Option Nat)
    (k' : JobId × Nat) : findStage (setComplT t k c) k' = findStage t k' := by
  rw [setComplT_map]
  exact findStage_map t (complUpd k c) k' (keyUpd_complUpd2 k c).1
    (fun r _ => ((complUpd_pres k c r).2 : (complUpd k c r).workflowStage = r.workflowStage))

theorem exists_key_setStatus {t : List Row} {k' : JobId × Nat}
    (k : JobId × Nat) (v : Status)
    (hex : ∃ r ∈ t, rowKeyT r = k') : ∃ r ∈ setStatusT t k v, rowKeyT r = k' := by
  rw [setStatusT_map]
  exact exists_key_map (keyUpd_statusUpd2 k v).1 hex

theorem status_masked_setStage {t : List Row} {k : JobId × Nat} {n : Status}
    (w : String)
    (h : ∀ r' ∈ t, rowKeyT r' = k → r'.status = n) :
    ∀ r' ∈ setStageT t k w, rowKeyT r' = k → r'.status = n := by
  rw [setStageT_map]
  exact masked_map_pred (keyUpd_stageUpd2 k w).1
    (fun r hr => by unfold stageUpd; rw [(stageUpd_pres k w r).1]; exact hr) h

theorem status_masked_setCompl {t : List Row} {k : JobId × Nat} {n : Status}
    (c : Option Nat)
    (h : ∀ r' ∈ t, rowKeyT r' = k → r'.status = n) :
    ∀ r' ∈ setComplT t k c, rowKeyT r' = k → r'.status = n := by
  rw [setComplT_map]
  exact masked_map_pred (keyUpd_complUpd2 k c).1
    (fun r hr => by unfold complUpd; rw [(complUpd_pres k c r).1]; exact hr) h

theorem compl_masked_setStatus {t : List Row} {k : JobId × Nat} {c : Option Nat}
    (v : Status)
    (h : ∀ r' ∈ t, rowKeyT r' = k → r'.completionTime = c) :
    ∀ r' ∈ setStatusT t k v, rowKeyT r' = k → r'.completionTime = c := by
  rw [setStatusT_map]
  exact masked_map_pred (keyUpd_statusUpd2 k v).1
    (fun r hr => by unfold statusUpd; rw [(statusUpd_pres k v r).1]; exact hr) h

/-- Two `PassState`s with the same table and failed set satisfy the same
mid-fold invariant. -/
theorem midPending_ext {snap : Snapshot} {S : List Row} {s1 s2 : PassState}
    (hT : s1.table = s2.table) (hF : s1.failed = s2.failed)
    (h : MidPending snap s1 S) : MidPending snap s2 S := by
  intro r hr hc
  rw [← hT] at hr
  rcases h r hr hc with he | hOK
  · exact Or.inl he
  · rw [hT, hF] at hOK
    exact Or.inr hOK

theorem statusUpd_pres2 (k : JobId × Nat) (v : Status) (r : Row) :
    (statusUpd k v r).completionTime = r.completionTime ∧
    (statusUpd k v r).workflowStage = r.workflowStage :=
  statusUpd_pres k v r

theorem stageUpd_pres2 (k : JobId × Nat) (v : String) (r : Row) :
    (stageUpd k v r).status = r.status ∧
    (stageUpd k v r).completionTime = r.completionTime :=
  stageUpd_pres k v r

theorem complUpd_pres2 (k : JobId × Nat) (c : Option Nat) (r : Row) :
    (complUpd k c r).status = r.status ∧
    (complUpd k c r).workflowStage = r.workflowStage :=
  complUpd_pres k c r

/-- A loop iteration whose writes only touch stages cannot unresolve a
checked masked row: it is already at the re-derived status (and this
iteration establishes its stage fact), in the overwrite class, or still
pending in the remaining iteration list. -/
theorem skip_masked_res {snap : Snapshot} {s : PassState} {j : Row} {S' : List Row}
    {g : Row → Row} {T : List Row} {F' : Finset Nat}
    (hg : KeyUpd (rowKeyT j) g)
    (hgp : ∀ r, (g r).status = r.status ∧ (g r).completionTime = r.completionTime)
    (hT : T = s.table.map g)
    (hw : j.status = nFor snap j.jobId j.batchId)
    (hInv : MidPending snap s (j :: S'))
    (hstage : nFor snap j.jobId j.batchId ∈ stageStatuses →
      findStage T (rowKeyT j) = snap.stageFn j.batchId (nFor snap j.jobId j.batchId))
    (hF : s.failed ⊆ F')
    (hfail : fFor snap j.jobId j.batchId = true → j.batchId ∈ F') :
    ∀ r ∈ s.table, rowKeyT r = rowKeyT j → (g r).status ∈ checkStatuses →
      (∃ j' ∈ S', rowKeyT j' = rowKeyT (g r) ∧ j'.status = (g r).status) ∨
      RowOK snap (s.table.map g) F' (g r) := by
  intro r hr hk hc
  rw [← hT]
  have hgs := (hgp r).1
  have e1 : r.jobId = j.jobId := congrArg Prod.fst hk
  have e2 : r.batchId = j.batchId := congrArg Prod.snd hk
  by_cases hrs : r.status = nFor snap j.jobId j.batchId
  · right
    refine resolved_n_row ?_ ?_ hstage hfail
    · rw [hg.1 r, hk]
    · rw [hgs, hrs]
  · have hcr : r.status ∈ checkStatuses := by
      rw [← hgs]
      exact hc
    rcases hInv r hr hcr with ⟨j', hj', hjk, hjs⟩ | hOK
    · rw [List.mem_cons] at hj'
      rcases hj' with rfl | hj''
      · exact absurd (hjs.symm.trans hw) hrs
      · refine Or.inl ⟨j', hj'', ?_, ?_⟩
        · rw [hg.1 r]
          exact hjk
        · rw [hgs]
          exact hjs
    · right
      obtain ⟨h1, h2, h3⟩ := hOK
      rw [e1, e2] at h3
      rcases h3 with h3 | ⟨hoc, hbf, hall⟩
      · exact absurd h3 hrs
      · refine resolved_over ?_ hoc ?_ hstage ?_
        · rw [hg.1 r, hk]
        · rw [hT]
          have hall' : OverAll snap s.table (rowKeyT j) := by
            rw [← hk]
            exact hall
          exact overAll_map_pres hg.1 hgp hall'
        · exact hF hbf

/-- `mid_step_general`, restated against any state whose table and failed
set match the iteration's output. -/
theorem mid_step_use {snap : Snapshot} {s : PassState} {j : Row} {S' : List Row}
    {g : Row → Row} {F' : Finset Nat} {s2 : PassState}
    (hg : KeyUpd (rowKeyT j) g)
    (hT : s2.table = s.table.map g)
    (hF2 : s2.failed = F')
    (hF : s.failed ⊆ F')
    (hInv : MidPending snap s (j :: S'))
    (hres : ∀ r ∈ s.table, rowKeyT r = rowKeyT j → (g r).status ∈ checkStatuses →
      (∃ j' ∈ S', rowKeyT j' = rowKeyT (g r) ∧ j'.status = (g r).status) ∨
      RowOK snap (s.table.map g) F' (g r)) :
    MidPending snap s2 S' ∧ s2.table.map rowKeyT = s.table.map rowKeyT := by
  refine ⟨?_, by rw [hT]; exact keys_map hg.1⟩
  intro r' hr' hc
  rw [hT] at hr'
  rcases List.mem_map.mp hr' with ⟨r, hr, rfl⟩
  by_cases hk : rowKeyT r = rowKeyT j
  · rcases hres r hr hk hc with he | hOK
    · exact Or.inl he
    · right
      rw [hT, hF2]
      exact hOK
  · rw [hg.2 r hk] at hc ⊢
    rcases hInv r hr hc with ⟨j', hj', hjk, hjs⟩ | hOK
    · rw [List.mem_cons] at hj'
      rcases hj' with rfl | hj''
      · exact absurd hjk.symm hk
      · exact Or.inl ⟨j', hj'', hjk, hjs⟩
    · right
      rw [hT, hF2]
      exact rowOK_frame hg hk hF hOK

/-- Masked-row resolution when this iteration wrote the re-derived status
to every masked row. -/
theorem write_masked_res {snap : Snapshot} {s : PassState} {j : Row} {S' : List Row}
    {g : Row → Row} {T : List Row} {F' : Finset Nat}
    (hg : KeyUpd (rowKeyT j) g)
    (hT : T = s.table.map g)
    (hstatus : ∀ r' ∈ T, rowKeyT r' = rowKeyT j →
      r'.status = nFor snap j.jobId j.batchId)
    (hstage : nFor snap j.jobId j.batchId ∈ stageStatuses →
      findStage T (rowKeyT j) = snap.stageFn j.batchId (nFor snap j.jobId j.batchId))
    (hfail : fFor snap j.jobId j.batchId = true → j.batchId ∈ F') :
    ∀ r ∈ s.table, rowKeyT r = rowKeyT j → (g r).status ∈ checkStatuses →
      (∃ j' ∈ S', rowKeyT j' = rowKeyT (g r) ∧ j'.status = (g r).status) ∨
      RowOK snap (s.table.map g) F' (g r) := by
  intro r hr hk _
  right
  rw [← hT]
  refine resolved_n_row ?_ ?_ hstage hfail
  · rw [hg.1 r, hk]
  · have hmem : g r ∈ T := by
      rw [hT]
      exact List.mem_map_of_mem g hr
    exact hstatus (g r) hmem (by rw [hg.1 r, hk])

/-- Masked-row resolution for the marker-absent terminal overwrite. -/
theorem over_masked_res {snap : Snapshot} {s : PassState} {j : Row} {S' : List Row}
    {g : Row → Row} {T : List Row} {F' : Finset Nat}
    (hg : KeyUpd (rowKeyT j) g)
    (hT : T = s.table.map g)
    (hoc : OverCond snap j.jobId j.batchId)
    (hall : OverAll snap T (rowKeyT j))
    (hstage : nFor snap j.jobId j.batchId ∈ stageStatuses →
      findStage T (rowKeyT j) = snap.stageFn j.batchId (nFor snap j.jobId j.batchId))
    (hbf : j.batchId ∈ F') :
    ∀ r ∈ s.table, rowKeyT r = rowKeyT j → (g r).status ∈ checkStatuses →
      (∃ j' ∈ S', rowKeyT j' = rowKeyT (g r) ∧ j'.status = (g r).status) ∨
      RowOK snap (s.table.map g) F' (g r) := by
  intro r hr hk _
  right
  rw [← hT]
  exact resolved_over (by rw [hg.1 r, hk]) hoc hall hstage hbf

/-- The loop tail after the status write (lines 362-389), for an abstract
post-stage-update table `t2` whose masked rows all hold the re-derived
status. -/
theorem write_tail {snap : Snapshot} {s : PassState} {j : Row} {S' : List Row}
    {g2 : Row → Row} {t2 : List Row}
    (hg2 : KeyUpd (rowKeyT j) g2)
    (ht2 : t2 = s.table.map g2)
    (ht2status : ∀ r' ∈ t2, rowKeyT r' = rowKeyT j →
      r'.status = nFor snap j.jobId j.batchId)
    (ht2stage : nFor snap j.jobId j.batchId ∈ stageStatuses →
      findStage t2 (rowKeyT j) = snap.stageFn j.batchId (nFor snap j.jobId j.batchId))
    (hInv : MidPending snap s (j :: S'))
    (hFsub : s.failed ⊆
      (if fFor snap j.jobId j.batchId = true then insert j.batchId s.failed
        else s.failed))
    (hfail1 : fFor snap j.jobId j.batchId = true →
      j.batchId ∈ (if fFor snap j.jobId j.batchId = true then insert j.batchId s.failed
        else s.failed))
    (runA : Finset String) (d1 d2 : Bool) :
    MidPending snap
      (if nFor snap j.jobId j.batchId ∈ [Status.RUNNING, Status.PENDING] then
        { table := t2,
          failed := if fFor snap j.jobId j.batchId = true then insert j.batchId s.failed
            else s.failed,
          running := runA, dirty := d1 }
      else
        if nFor snap j.jobId j.batchId ∈ terminalStatuses then
          match snap.rootMarker j.batchId with
          | some content =>
            if ¬content = "0" then
              if ¬nFor snap j.jobId j.batchId = Status.PARTIALLY_COMPLETE then
                if ¬nFor snap j.jobId j.batchId = Status.FAILED then
                  { table := setStatusT (setComplT t2 (rowKeyT j) (some snap.now))
                      (rowKeyT j) Status.FAILED,
                    failed := insert j.batchId
                      (if fFor snap j.jobId j.batchId = true then insert j.batchId s.failed
                        else s.failed),
                    running := s.running, dirty := true }
                else
                  { table := setComplT t2 (rowKeyT j) (some snap.now),
                    failed := insert j.batchId
                      (if fFor snap j.jobId j.batchId = true then insert j.batchId s.failed
                        else s.failed),
                    running := s.running, dirty := true }
              else
                { table := setComplT t2 (rowKeyT j) (some snap.now),
                  failed := if fFor snap j.jobId j.batchId = true then insert j.batchId s.failed
                    else s.failed,
                  running := s.running, dirty := true }
            else
              { table := setComplT t2 (rowKeyT j) (some snap.now),
                failed := if fFor snap j.jobId j.batchId = true then insert j.batchId s.failed
                  else s.failed,
                running := s.running, dirty := true }
          | none =>
            if nFor snap j.jobId j.batchId ∉ [Status.CANCELLED, Status.PARTIALLY_COMPLETE] then
              if ¬nFor snap j.jobId j.batchId = Status.FAILED then
                { table := setStatusT (setComplT t2 (rowKeyT j) (some snap.now))
                    (rowKeyT j) Status.FAILED,
                  failed := insert j.batchId
                    (if fFor snap j.jobId j.batchId = true then insert j.batchId s.failed
                      else s.failed),
                  running := s.running, dirty := true }
              else
                { table := setComplT t2 (rowKeyT j) (some snap.now),
                  failed := insert j.batchId
                    (if fFor snap j.jobId j.batchId = true then insert j.batchId s.failed
                      else s.failed),
                  running := s.running, dirty := true }
            else
              { table := setComplT t2 (rowKeyT j) (some snap.now),
                failed := if fFor snap j.jobId j.batchId = true then insert j.batchId s.failed
                  else s.failed,
                running := s.running, dirty := true }
        else
          { table := t2,
            failed := if fFor snap j.jobId j.batchId = true then insert j.batchId s.failed
              else s.failed,
            running := s.running, dirty := d2 }) S' ∧
    (if nFor snap j.jobId j.batchId ∈ [Status.RUNNING, Status.PENDING] then
        { table := t2,
          failed := if fFor snap j.jobId j.batchId = true then insert j.batchId s.failed
            else s.failed,
          running := runA, dirty := d1 }
      else
        if nFor snap j.jobId j.batchId ∈ terminalStatuses then
          match snap.rootMarker j.batchId with
          | some content =>
            if ¬content = "0" then
              if ¬nFor snap j.jobId j.batchId = Status.PARTIALLY_COMPLETE then
                if ¬nFor snap j.jobId j.batchId = Status.FAILED then
                  { table := setStatusT (setComplT t2 (rowKeyT j) (some snap.now))
                      (rowKeyT j) Status.FAILED,
                    failed := insert j.batchId
                      (if fFor snap j.jobId j.batchId = true then insert j.batchId s.failed
                        else s.failed),
                    running := s.running, dirty := true }
                else
                  { table := setComplT t2 (rowKeyT j) (some snap.now),
                    failed := insert j.batchId
                      (if fFor snap j.jobId j.batchId = true then insert j.batchId s.failed
                        else s.failed),
                    running := s.running, dirty := true }
              else
                { table := setComplT t2 (rowKeyT j) (some snap.now),
                  failed := if fFor snap j.jobId j.batchId = true then insert j.batchId s.failed
                    else s.failed,
                  running := s.running, dirty := true }
            else
              { table := setComplT t2 (rowKeyT j) (some snap.now),
                failed := if fFor snap j.jobId j.batchId = true then insert j.batchId s.failed
                  else s.failed,
                running := s.running, dirty := true }
          | none =>
            if nFor snap j.jobId j.batchId ∉ [Status.CANCELLED, Status.PARTIALLY_COMPLETE] then
              if ¬nFor snap j.jobId j.batchId = Status.FAILED then
                { table := setStatusT (setComplT t2 (rowKeyT j) (some snap.now))
                    (rowKeyT j) Status.FAILED,
                  failed := insert j.batchId
                    (if fFor snap j.jobId j.batchId = true then insert j.batchId s.failed
                      else s.failed),
                  running := s.running, dirty := true }
              else
                { table := setComplT t2 (rowKeyT j) (some snap.now),
                  failed := insert j.batchId
                    (if fFor snap j.jobId j.batchId = true then insert j.batchId s.failed
                      else s.failed),
                  running := s.running, dirty := true }
            else
              { table := setComplT t2 (rowKeyT j) (some snap.now),
                failed := if fFor snap j.jobId j.batchId = true then insert j.batchId s.failed
                  else s.failed,
                running := s.running, dirty := true }
        else
          { table := t2,
            failed := if fFor snap j.jobId j.batchId = true then insert j.batchId s.failed
              else s.failed,
            running := s.running, dirty := d2 } : PassState).table.map rowKeyT
      = s.table.map rowKeyT := by
  have hg3 : KeyUpd (rowKeyT j)
      (fun r => complUpd (rowKeyT j) (some snap.now) (g2 r)) :=
    keyUpd_comp hg2 (keyUpd_complUpd2 _ _)
  have ht3 : setComplT t2 (rowKeyT j) (some snap.now) =
      s.table.map (fun r => complUpd (rowKeyT j) (some snap.now) (g2 r)) := by
    rw [ht2, setComplT_map, List.map_map]
    rfl
  have ht3status : ∀ r' ∈ setComplT t2 (rowKeyT j) (some snap.now),
      rowKeyT r' = rowKeyT j → r'.status = nFor snap j.jobId j.batchId :=
    status_masked_setCompl _ ht2status
  have ht3stage : nFor snap j.jobId j.batchId ∈ stageStatuses →
      findStage (setComplT t2 (rowKeyT j) (some snap.now)) (rowKeyT j) =
        snap.stageFn j.batchId (nFor snap j.jobId j.batchId) := by
    intro hn
    rw [findStage_setCompl]
    exact ht2stage hn
  have hFsub2 : s.failed ⊆ insert j.batchId
      (if fFor snap j.jobId j.batchId = true then insert j.batchId s.failed
        else s.failed) :=
    hFsub.trans (Finset.subset_insert _ _)
  have hfail2 : fFor snap j.jobId j.batchId = true → j.batchId ∈ insert j.batchId
      (if fFor snap j.jobId j.batchId = true then insert j.batchId s.failed
        else s.failed) :=
    fun _ => Finset.mem_insert_self _ _
  by_cases hrp : nFor snap j.jobId j.batchId ∈ [Status.RUNNING, Status.PENDING]
  · rw [if_pos hrp]
    exact mid_step_use hg2 ht2 rfl hFsub hInv
      (write_masked_res hg2 ht2 ht2status ht2stage hfail1)
  · rw [if_neg hrp]
    by_cases hterm : nFor snap j.jobId j.batchId ∈ terminalStatuses
    · rw [if_pos hterm]
      cases hm : snap.rootMarker j.batchId with
      | some content =>
        dsimp only
        by_cases hc0 : content = "0"
        · rw [if_neg (not_not_intro hc0)]
          exact mid_step_use hg3 ht3 rfl hFsub hInv
            (write_masked_res hg3 ht3 ht3status ht3stage hfail1)
        · rw [if_pos hc0]
          by_cases hPC : nFor snap j.jobId j.batchId = Status.PARTIALLY_COMPLETE
          · rw [if_neg (not_not_intro hPC)]
            exact mid_step_use hg3 ht3 rfl hFsub hInv
              (write_masked_res hg3 ht3 ht3status ht3stage hfail1)
          · rw [if_pos hPC]
            by_cases hFA : nFor snap j.jobId j.batchId = Status.FAILED
            · rw [if_neg (not_not_intro hFA)]
              exact mid_step_use hg3 ht3 rfl hFsub2 hInv
                (write_masked_res hg3 ht3 ht3status ht3stage hfail2)
            · rcases nFor_marker_nonzero snap j.jobId j.batchId content hm hc0 with h | h
              · exact absurd h hPC
              · exact absurd h hFA
      | none =>
        dsimp only
        by_cases hcp : nFor snap j.jobId j.batchId ∈
            [Status.CANCELLED, Status.PARTIALLY_COMPLETE]
        · rw [if_neg (not_not_intro hcp)]
          exact mid_step_use hg3 ht3 rfl hFsub hInv
            (write_masked_res hg3 ht3 ht3status ht3stage hfail1)
        · rw [if_pos hcp]
          by_cases hFA : nFor snap j.jobId j.batchId = Status.FAILED
          · rw [if_neg (not_not_intro hFA)]
            exact mid_step_use hg3 ht3 rfl hFsub2 hInv
              (write_masked_res hg3 ht3 ht3status ht3stage hfail2)
          · rw [if_pos hFA]
            have hg4 : KeyUpd (rowKeyT j) (fun r =>
                statusUpd (rowKeyT j) Status.FAILED
                  (complUpd (rowKeyT j) (some snap.now) (g2 r))) :=
              keyUpd_comp hg3 (keyUpd_statusUpd2 _ _)
            have ht4 : setStatusT (setComplT t2 (rowKeyT j) (some snap.now))
                (rowKeyT j) Status.FAILED =
                s.table.map (fun r => statusUpd (rowKeyT j) Status.FAILED
                  (complUpd (rowKeyT j) (some snap.now) (g2 r))) := by
              rw [ht3, setStatusT_map, List.map_map]
              rfl
            have hoc : OverCond snap j.jobId j.batchId := ⟨hm, hterm, hcp, hFA⟩
            have hall : OverAll snap (setStatusT (setComplT t2 (rowKeyT j) (some snap.now))
                (rowKeyT j) Status.FAILED) (rowKeyT j) := by
              intro r' hr' hk'
              refine ⟨status_masked_set _ _ _ r' hr' hk', ?_⟩
              exact compl_masked_setStatus _ (compl_masked_set _ _ _) r' hr' hk'
            have hstage4 : nFor snap j.jobId j.batchId ∈ stageStatuses →
                findStage (setStatusT (setComplT t2 (rowKeyT j) (some snap.now))
                  (rowKeyT j) Status.FAILED) (rowKeyT j) =
                  snap.stageFn j.batchId (nFor snap j.jobId j.batchId) := by
              intro hn
              rw [findStage_setStatus, findStage_setCompl]
              exact ht2stage hn
            exact mid_step_use hg4 ht4 rfl hFsub2 hInv
              (over_masked_res hg4 ht4 hoc hall hstage4 (Finset.mem_insert_self _ _))
    · rw [if_neg hterm]
      exact mid_step_use hg2 ht2 rfl hFsub hInv
        (write_masked_res hg2 ht2 ht2status ht2stage hfail1)

theorem step_establish (snap : Snapshot) (s : PassState) (j : Row) (S' : List Row)
    (hmask : (s.table.any fun r => decide (rowKeyT r = rowKeyT j)) = true)
    (hInv : MidPending snap s (j :: S')) :
    MidPending snap (processRow snap s j) S' ∧
    (processRow snap s j).table.map rowKeyT = s.table.map rowKeyT := by
  have hex : ∃ r ∈ s.table, rowKeyT r = rowKeyT j := by
    rcases List.any_eq_true.mp hmask with ⟨r, hr, hd⟩
    exact ⟨r, hr, of_decide_eq_true hd⟩
  have hFsub : s.failed ⊆
      (if fFor snap j.jobId j.batchId = true then insert j.batchId s.failed
        else s.failed) := by
    split_ifs
    · exact Finset.subset_insert _ _
    · exact Finset.Subset.refl _
  have hfail1 : fFor snap j.jobId j.batchId = true →
      j.batchId ∈ (if fFor snap j.jobId j.batchId = true then insert j.batchId s.failed
        else s.failed) := by
    intro hf
    rw [if_pos hf]
    exact Finset.mem_insert_self _ _
  simp only [processRow, nFor_def, fFor_def]
  rw [hmask]
  simp only [eq_self_iff_true, true_and]
  by_cases hw : j.status = nFor snap j.jobId j.batchId
  · simp only [hw, ne_eq, not_true_eq_false, if_false, ite_false]
    by_cases hsg : nFor snap j.jobId j.batchId ∈ stageStatuses
    · rw [if_pos hsg]
      by_cases hsf : snap.stageFn j.batchId (nFor snap j.jobId j.batchId)
          = findStage s.table (rowKeyT j)
      · rw [if_neg (not_not_intro hsf)]
        refine mid_step_use (keyUpd_id _) ?_ ?_ hFsub hInv
          (skip_masked_res (keyUpd_id _) (fun r => ⟨rfl, rfl⟩)
            (show s.table = s.table.map (fun r => r) by simp) hw hInv
            (fun _ => hsf.symm) hFsub hfail1)
        · split_ifs <;> simp
        · split_ifs <;> rfl
      · rw [if_pos hsf]
        refine mid_step_use (keyUpd_stageUpd2 (rowKeyT j) _) ?_ ?_ hFsub hInv
          (skip_masked_res (keyUpd_stageUpd2 (rowKeyT j) _)
            (fun r => stageUpd_pres2 _ _ r) (setStageT_map _ _ _).symm hw hInv
            (fun _ => findStage_setStage s.table (rowKeyT j) _ hex) hFsub hfail1)
        · split_ifs <;> rfl
        · split_ifs <;> rfl
    · rw [if_neg hsg]
      refine mid_step_use (keyUpd_id _) ?_ ?_ hFsub hInv
        (skip_masked_res (keyUpd_id _) (fun r => ⟨rfl, rfl⟩)
          (show s.table = s.table.map (fun r => r) by simp) hw hInv
          (fun hn => absurd hn hsg) hFsub hfail1)
      · split_ifs <;> simp
      · split_ifs <;> rfl
  · have hw2 : ¬(nFor snap j.jobId j.batchId = j.status) := fun h => hw h.symm
    simp only [ne_eq, hw, hw2, not_false_eq_true, if_true, ite_true]
    have hg1 : KeyUpd (rowKeyT j) (statusUpd (rowKeyT j) (nFor snap j.jobId j.batchId)) :=
      keyUpd_statusUpd2 _ _
    have ht1 : setStatusT s.table (rowKeyT j) (nFor snap j.jobId j.batchId) =
        s.table.map (statusUpd (rowKeyT j) (nFor snap j.jobId j.batchId)) :=
      setStatusT_map _ _ _
    have ht1status : ∀ r' ∈ setStatusT s.table (rowKeyT j) (nFor snap j.jobId j.batchId),
        rowKeyT r' = rowKeyT j → r'.status = nFor snap j.jobId j.batchId :=
      status_masked_set _ _ _
    by_cases hsg : nFor snap j.jobId j.batchId ∈ stageStatuses
    · rw [if_pos hsg]
      by_cases hsf : snap.stageFn j.batchId (nFor snap j.jobId j.batchId)
          = findStage (setStatusT s.table (rowKeyT j) (nFor snap j.jobId j.batchId))
            (rowKeyT j)
      · rw [if_neg (not_not_intro hsf)]
        dsimp only
        exact write_tail hg1 ht1 ht1status (fun _ => hsf.symm) hInv hFsub hfail1 _ _ _
      · rw [if_pos hsf]
        dsimp only
        have hg2 : KeyUpd (rowKeyT j) (fun r =>
            stageUpd (rowKeyT j) (snap.stageFn j.batchId (nFor snap j.jobId j.batchId))
              (statusUpd (rowKeyT j) (nFor snap j.jobId j.batchId) r)) :=
          keyUpd_comp hg1 (keyUpd_stageUpd2 _ _)
        have ht2 : setStageT (setStatusT s.table (rowKeyT j) (nFor snap j.jobId j.batchId))
            (rowKeyT j) (snap.stageFn j.batchId (nFor snap j.jobId j.batchId)) =
            s.table.map (fun r =>
              stageUpd (rowKeyT j) (snap.stageFn j.batchId (nFor snap j.jobId j.batchId))
                (statusUpd (rowKeyT j) (nFor snap j.jobId j.batchId) r)) := by
          rw [ht1, setStageT_map, List.map_map]
          rfl
        have ht2status := status_masked_setStage
          (snap.stageFn j.batchId (nFor snap j.jobId j.batchId)) ht1status
        have ht2stage : nFor snap j.jobId j.batchId ∈ stageStatuses →
            findStage (setStageT (setStatusT s.table (rowKeyT j)
                (nFor snap j.jobId j.batchId)) (rowKeyT j)
              (snap.stageFn j.batchId (nFor snap j.jobId j.batchId))) (rowKeyT j) =
              snap.stageFn j.batchId (nFor snap j.jobId j.batchId) := by
          intro _
          exact findStage_setStage _ _ _ (exists_key_setStatus _ _ hex)
        exact write_tail hg2 ht2 ht2status ht2stage hInv hFsub hfail1 _ _ _
    · rw [if_neg hsg]
      dsimp only
      exact write_tail hg1 ht1 ht1status (fun hn => absurd hn hsg) hInv hFsub hfail1 _ _ _


/-- Folding the check loop establishes the invariant once the iteration
list is exhausted (keys of the table never change). -/
theorem fold_establish (snap : Snapshot) (t0 : List Row) :
    ∀ (S : List Row) (s : PassState),
      s.table.map rowKeyT = t0.map rowKeyT →
      (∀ j ∈ S, rowKeyT j ∈ t0.map rowKeyT) →
      MidPending snap s S →
      (List.foldl (processRow snap) s S).table.map rowKeyT = t0.map rowKeyT ∧
      MidPending snap (List.foldl (processRow snap) s S) [] := by
  intro S
  induction S with
  | nil =>
    intro s hkeys _ hInv
    exact ⟨hkeys, hInv⟩
  | cons j S ih =>
    intro s hkeys hjs hInv
    rw [List.foldl_cons]
    have hmask : (s.table.any fun r => decide (rowKeyT r = rowKeyT j)) = true := by
      have hmem : rowKeyT j ∈ s.table.map rowKeyT := by
        rw [hkeys]
        exact hjs j (List.mem_cons_self j S)
      rcases List.mem_map.mp hmem with ⟨r, hr, hk⟩
      exact List.any_eq_true.mpr ⟨r, hr, decide_eq_true hk⟩
    obtain ⟨hstep, hkeep⟩ := step_establish snap s j S hmask hInv
    exact ih (processRow snap s j) (hkeep.trans hkeys)
      (fun x hx => hjs x (List.mem_cons_of_mem _ hx)) hstep

theorem row_set_status_self (r : Row) (v : Status) (h : r.status = v) :
    { r with status := v } = r := by
  cases r
  cases h
  rfl

/-- The never-submitted sweep preserves the classification of checked
rows (it touches only rows whose status is outside the known list). -/
theorem sweep_TableOK {snap : Snapshot} {t : List Row} {f : Finset Nat}
    (h : TableOK snap t f) :
    TableOK snap
      (t.map (fun r => if nsMask r then { r with status := Status.NEVER_SUBMITTED }
        else r)) f := by
  intro r' hr' hc
  rcases List.mem_map.mp hr' with ⟨r, hr, rfl⟩
  have hkeyg : ∀ r0 : Row, rowKeyT (if nsMask r0 then
      { r0 with status := Status.NEVER_SUBMITTED } else r0) = rowKeyT r0 := by
    intro r0
    by_cases h0 : nsMask r0
    · rw [if_pos h0]
      rfl
    · rw [if_neg h0]
  by_cases hns : nsMask r
  · rw [if_pos hns] at hc
    have hc' : Status.NEVER_SUBMITTED ∈ checkStatuses := hc
    exact absurd hc' (by decide)
  · rw [if_neg hns] at hc ⊢
    obtain ⟨h1, h2, h3⟩ := h r hr hc
    refine ⟨h1, ?_, ?_⟩
    · intro hn
      have hfs : findStage (t.map (fun r0 => if nsMask r0 then
          { r0 with status := Status.NEVER_SUBMITTED } else r0)) (rowKeyT r)
          = findStage t (rowKeyT r) := by
        apply findStage_map t _ (rowKeyT r) hkeyg
        intro r0 _
        by_cases h0 : nsMask r0
        · rw [if_pos h0]
        · rw [if_neg h0]
      rw [hfs]
      exact h2 hn
    · rcases h3 with h3 | ⟨hoc, hbf, hall⟩
      · exact Or.inl h3
      · refine Or.inr ⟨hoc, hbf, ?_⟩
        intro r0 hr0 hk0
        rcases List.mem_map.mp hr0 with ⟨r1, hr1, rfl⟩
        rw [hkeyg r1] at hk0
        obtain ⟨hs1, hc1⟩ := hall r1 hr1 hk0
        have hns1 : ¬ nsMask r1 := by
          intro hcon
          obtain ⟨hk, _, _⟩ := hcon
          rw [hs1] at hk
          exact hk (by decide)
        rw [if_neg hns1]
        exact ⟨hs1, hc1⟩

theorem sweep_NSOK (t : List Row) :
    NSOK (t.map (fun r => if nsMask r then { r with status := Status.NEVER_SUBMITTED }
      else r)) := by
  intro r' hr' hns'
  rcases List.mem_map.mp hr' with ⟨r, hr, rfl⟩
  by_cases hns : nsMask r
  · rw [if_pos hns]
  · rw [if_neg hns] at hns' ⊢
    exact absurd hns' hns

/-- Establishment: after a full pass the table satisfies the
classification invariant and the sweep postcondition. -/
theorem runPass_establish (snap : Snapshot) (t0 : List Row) (f0 : Finset Nat) :
    TableOK snap (runPass snap t0 f0).table (runPass snap t0 f0).failed ∧
    NSOK (runPass snap t0 f0).table := by
  have hjs : ∀ j ∈ t0.filter (fun r => decide (r.status ∈ checkStatuses)),
      rowKeyT j ∈ t0.map rowKeyT := by
    intro x hx
    exact List.mem_map_of_mem rowKeyT (List.mem_filter.mp hx).1
  have hInit : MidPending snap ⟨t0, f0, ∅, false⟩
      (t0.filter (fun r => decide (r.status ∈ checkStatuses))) := by
    intro r hr hc
    exact Or.inl ⟨r, List.mem_filter.mpr ⟨hr, decide_eq_true hc⟩, rfl, rfl⟩
  obtain ⟨hkeys, hMP⟩ := fold_establish snap t0
    (t0.filter (fun r => decide (r.status ∈ checkStatuses)))
    ⟨t0, f0, ∅, false⟩ rfl hjs hInit
  have hTOK : TableOK snap
      (List.foldl (processRow snap) ⟨t0, f0, ∅, false⟩
        (t0.filter (fun r => decide (r.status ∈ checkStatuses)))).table
      (List.foldl (processRow snap) ⟨t0, f0, ∅, false⟩
        (t0.filter (fun r => decide (r.status ∈ checkStatuses)))).failed := by
    intro r hr hc
    rcases hMP r hr hc with ⟨j', hj', _⟩ | hOK
    · exact absurd hj' (List.not_mem_nil j')
    · exact hOK
  simp only [runPass]
  by_cases hany : ((List.foldl (processRow snap) ⟨t0, f0, ∅, false⟩
      (t0.filter (fun r => decide (r.status ∈ checkStatuses)))).table.any
        fun r => decide (nsMask r)) = true
  · rw [if_pos hany]
    exact ⟨sweep_TableOK hTOK, sweep_NSOK _⟩
  · rw [if_neg hany]
    refine ⟨hTOK, ?_⟩
    intro r hr hns
    exact absurd (List.any_eq_true.mpr ⟨r, hr, decide_eq_true hns⟩) hany

/-- The transient status rewrite of the overwrite class restores the
table: write the re-derived status, stamp the (already equal) completion
time, overwrite back to `FAILED`. -/
theorem over_rewrite_id (t : List Row) (k : JobId × Nat) (n : Status) (c : Option Nat)
    (hall : ∀ r ∈ t, rowKeyT r = k → r.status = Status.FAILED ∧ r.completionTime = c) :
    setStatusT (setComplT (setStatusT t k n) k c) k Status.FAILED = t := by
  rw [setStatusT_map, setComplT_map, setStatusT_map, List.map_map, List.map_map]
  have h1 : ∀ r ∈ t,
      (statusUpd k Status.FAILED ∘ complUpd k c ∘ statusUpd k n) r = r := by
    intro r hr
    by_cases hk : rowKeyT r = k
    · obtain ⟨hs, hc⟩ := hall r hr hk
      simp only [Function.comp, statusUpd, complUpd]
      rw [if_pos hk]
      have hk2 : rowKeyT { r with status := n } = k := hk
      rw [if_pos hk2]
      have hk3 : rowKeyT { r with status := n, completionTime := c } = k := hk
      rw [if_pos hk3]
      cases r
      cases hs
      cases hc
      rfl
    · simp only [Function.comp, statusUpd, complUpd]
      rw [if_neg hk, if_neg hk, if_neg hk]
  exact (List.map_congr_left h1).trans (List.map_id t)

/-- On a classified table the loop body leaves table and failed set
unchanged (the overwrite class rewrites values transiently and restores
them). -/
theorem processRow_fixed (snap : Snapshot) (t : List Row) (f : Finset Nat)
    (run : Finset String) (d : Bool) (j : Row)
    (hj : j ∈ t) (hjc : j.status ∈ checkStatuses)
    (hTOK : TableOK snap t f) :
    (processRow snap ⟨t, f, run, d⟩ j).table = t ∧
    (processRow snap ⟨t, f, run, d⟩ j).failed = f := by
  obtain ⟨h1, h2, h3⟩ := hTOK j hj hjc
  have hmask : (t.any fun r => decide (rowKeyT r = rowKeyT j)) = true :=
    List.any_eq_true.mpr ⟨j, hj, decide_eq_true rfl⟩
  have hf1 : (if fFor snap j.jobId j.batchId = true then insert j.batchId f else f)
      = f := by
    split_ifs with hf
    · exact Finset.insert_eq_self.mpr (h1 hf)
    · rfl
  simp only [processRow, nFor_def, fFor_def]
  rw [hmask]
  simp only [eq_self_iff_true, true_and]
  rcases h3 with hst | ⟨hoc, hbf, hall⟩
  · simp only [hst, ne_eq, not_true_eq_false, if_false, ite_false]
    rw [hf1]
    by_cases hsg : nFor snap j.jobId j.batchId ∈ stageStatuses
    · rw [if_pos hsg]
      rw [if_neg (not_not_intro (h2 hsg).symm)]
      refine ⟨?_, ?_⟩ <;> split_ifs <;> rfl
    · rw [if_neg hsg]
      refine ⟨?_, ?_⟩ <;> split_ifs <;> rfl
  · obtain ⟨hm, hterm, hcp, hFA⟩ := hoc
    obtain ⟨hjF, hjC⟩ := hall j hj rfl
    have hw : ¬ j.status = nFor snap j.jobId j.batchId := by
      rw [hjF]
      exact fun h => hFA h.symm
    have hw2 : ¬ nFor snap j.jobId j.batchId = j.status := by
      rw [hjF]
      exact hFA
    simp only [ne_eq, hw, hw2, not_false_eq_true, if_true, ite_true]
    have hrp : nFor snap j.jobId j.batchId ∉ [Status.RUNNING, Status.PENDING] := by
      have hmem : nFor snap j.jobId j.batchId = Status.COMPLETED ∨
          nFor snap j.jobId j.batchId = Status.CANCELLED ∨
          nFor snap j.jobId j.batchId = Status.FAILED ∨
          nFor snap j.jobId j.batchId = Status.TIMEOUT ∨
          nFor snap j.jobId j.batchId = Status.UNKNOWN ∨
          nFor snap j.jobId j.batchId = Status.PARTIALLY_COMPLETE := by
        simpa [terminalStatuses] using hterm
      rcases hmem with h | h | h | h | h | h <;> rw [h] <;> decide
    rw [if_neg hrp, if_pos hterm, hm]
    dsimp only
    rw [if_pos hcp, if_pos hFA]
    by_cases hsg : nFor snap j.jobId j.batchId ∈ stageStatuses
    · rw [if_pos hsg]
      rw [if_neg (not_not_intro
        ((findStage_setStatus t (rowKeyT j) _ (rowKeyT j)).trans (h2 hsg)).symm)]
      dsimp only
      refine ⟨?_, ?_⟩
      · exact over_rewrite_id t (rowKeyT j) _ (some snap.now) hall
      · rw [hf1]
        exact Finset.insert_eq_self.mpr hbf
    · rw [if_neg hsg]
      dsimp only
      refine ⟨?_, ?_⟩
      · exact over_rewrite_id t (rowKeyT j) _ (some snap.now) hall
      · rw [hf1]
        exact Finset.insert_eq_self.mpr hbf

theorem foldl_fixed (snap : Snapshot) (t : List Row) (f : Finset Nat)
    (hTOK : TableOK snap t f) :
    ∀ (S : List Row) (run : Finset String) (d : Bool),
      (∀ j ∈ S, j ∈ t ∧ j.status ∈ checkStatuses) →
      (List.foldl (processRow snap) ⟨t, f, run, d⟩ S).table = t ∧
      (List.foldl (processRow snap) ⟨t, f, run, d⟩ S).failed = f := by
  intro S
  induction S with
  | nil =>
    intro run d _
    exact ⟨rfl, rfl⟩
  | cons j S ih =>
    intro run d hmem
    rw [List.foldl_cons]
    obtain ⟨hj, hjc⟩ := hmem j (List.mem_cons_self j S)
    obtain ⟨hT, hF⟩ := processRow_fixed snap t f run d j hj hjc hTOK
    rcases hps : processRow snap ⟨t, f, run, d⟩ j with ⟨T', F', R', D'⟩
    rw [hps] at hT hF
    dsimp only at hT hF
    subst hT
    subst hF
    exact ih R' D' (fun x hx => hmem x (List.mem_cons_of_mem _ hx))

/-- A classified, swept table is a fixed point of the whole pass: table
and failed set are returned unchanged. -/
theorem runPass_fixed (snap : Snapshot) (t : List Row) (f : Finset Nat)
    (hTOK : TableOK snap t f) (hNS : NSOK t) :
    (runPass snap t f).table = t ∧ (runPass snap t f).failed = f := by
  obtain ⟨hT, hF⟩ := foldl_fixed snap t f hTOK
    (t.filter (fun r => decide (r.status ∈ checkStatuses))) ∅ false
    (fun x hx => ⟨(List.mem_filter.mp hx).1,
      of_decide_eq_true (List.mem_filter.mp hx).2⟩)
  simp only [runPass]
  rw [hT, hF]
  refine ⟨?_, rfl⟩
  by_cases hany : (t.any fun r => decide (nsMask r)) = true
  · rw [if_pos hany]
    have hid : ∀ r ∈ t, (if nsMask r then { r with status := Status.NEVER_SUBMITTED }
        else r) = r := by
      intro r hr
      by_cases hns : nsMask r
      · rw [if_pos hns]
        exact row_set_status_self r _ (hNS r hr hns)
      · rw [if_neg hns]
    exact (List.map_congr_left hid).trans (List.map_id t)
  · rw [if_neg hany]

/-- The fixed snapshot and one-row never-submitted table of the C2
counterexample. -/
def idemSnap : Snapshot :=
  { queue := [],
    sched := fun _ => .UNKNOWN,
    rootMarker := fun _ => none,
    stepObs := fun _ _ => .dirAbsent,
    stageFn := fun _ _ => "never_submitted",
    now := 0,
    workflowSteps := [],
    numBatches := 1,
    batchFiles := fun _ => none,
    submitResult := fun _ => none }

def idemTable : List Row :=
  [{ batchId := 1, jobId := .na, status := .NEVER_SUBMITTED,
     submissionTime := none, completionTime := none,
     workflowStage := "never_submitted" }]

/-- Counterexample to C2's persistence half: against a fixed snapshot the
second pass changes no table value and no failed batch, yet still reports
a save — the never-submitted sweep (job_tracker.py 392-400) sets
`status_changes` whenever any row matches its mask, even when the
assignment rewrites the same value. -/
theorem reconciler_second_save :
    (runPass idemSnap (runPass idemSnap idemTable ∅).table
      (runPass idemSnap idemTable ∅).failed).saved = true ∧
    (runPass idemSnap (runPass idemSnap idemTable ∅).table
      (runPass idemSnap idemTable ∅).failed).table
        = (runPass idemSnap idemTable ∅).table ∧
    (runPass idemSnap (runPass idemSnap idemTable ∅).table
      (runPass idemSnap idemTable ∅).failed).failed
        = (runPass idemSnap idemTable ∅).failed := by
  decide

/-- **C2**. Value-level idempotence of the reconciliation pass: for every
fixed queue/filesystem snapshot, status table and failed-batch set,
running `_get_running_jobs` a second time immediately after a first pass
changes no row (hence no status, workflow stage or completion time) and
no failed batch — the second pass's table and failed set equal the
first's.  (The frozen claim's further assertion that the second pass does
not write the Store is refuted by `reconciler_second_save`.) -/
theorem reconciler_value_idempotent (snap : Snapshot) (t0 : List Row) (f0 : Finset Nat) :
    (runPass snap (runPass snap t0 f0).table (runPass snap t0 f0).failed).table
      = (runPass snap t0 f0).table ∧
    (runPass snap (runPass snap t0 f0).table (runPass snap t0 f0).failed).failed
      = (runPass snap t0 f0).failed := by
  obtain ⟨hTOK, hNS⟩ := runPass_establish snap t0 f0
  exact runPass_fixed snap _ _ hTOK hNS
